import Mathlib

/-!
Verification development for the study-abroad planner repository.

The repository consists of three deterministic leaf tools
(`calculator_tools.py`, `browser_tools.py`, `search_tools.py`) and a
sequential pipeline (`main.py`, duplicated in `src/crew.py`) that chains
three delegate calls to an external text-generation backend.

This file shallowly embeds that code:

* Python strings are `String` / `List Char`; `str.strip`, `str.lower`,
  `str.split`, substring tests and the two regular expressions used by the
  code are implemented directly on character lists.
* Python floats are IEEE-754 binary64 values, modelled as the exact
  rationals they denote: `roundDbl : ℚ → ℚ` rounds an exact rational to
  the nearest binary64 (ties to even), and the embedding applies it
  wherever the program creates a float (`float(...)`, float literals, the
  rate table) or combines floats (`addDbl`, `mulDbl`, `divDbl`, ...).
  Overflow to infinity and subnormal underflow are outside the model.
  Exact rational arithmetic underneath uses executable wrappers (`qAdd`,
  `qMul`, ...) built on `Rat.divInt` so that every definition evaluates
  inside the kernel; the wrappers are proved equal to the field
  operations.
* `eval` on the sanitised arithmetic charset `[0-9+-*/().\s]` is embedded
  as a tokenizer plus a fuel-indexed recursive-descent parser/evaluator
  with Python's semantics: `int` preserved under `+ - * // **` (with
  non-negative exponents), true division always produces a float, `//`
  is floor division, `**` is right-associative and binds tighter than
  unary minus, integer literals with leading zeros are a syntax error,
  and division by zero (also `0 ** negative`) is a tagged
  `ZeroDivisionError`.  A floating-point power with a non-integral
  exponent would require rounding a transcendental real; the embedding
  marks such inputs `unmodeled` and the calculator returns `none` for
  them (every claim below is about modelled inputs).  Syntax-error
  message texts are schematic ("invalid syntax"): CPython's messages
  vary by cause and carry location suffixes, and no theorem relies on
  them.
* Python number formatting is implemented exactly: `{:,.2f}` as
  correctly rounded two-decimal output with thousands separators (ties
  to even), `{:,}` on a float as `repr` (the shortest decimal digit
  string that reads back, via `roundDbl`, as the same binary64; fixed
  notation for decimal exponents in `[-4, 16)`, scientific outside).
* `calculator_tools.py` is stored double-encoded (mojibake): Python 3
  reads the file as UTF-8, so the program really compares against and
  emits the mojibake characters.  The embedding reproduces the file's
  actual characters (written with explicit `\u` escapes) — e.g. the
  symbol list of line 25 holds, after `'$'`, the sequences
  U+00E2 U+201A U+00AC, U+00C2 U+00A3 and U+00C2 U+00A5 where `€`, `£`,
  `¥` were meant, and the cross-mark prefix of its error strings is the
  pair U+00E2 U+0152, not `❌`.  The other source files are clean UTF-8
  and keep their literals.
* Effectful boundaries (HTTP fetch, search API, the per-stage delegate
  call into the LLM backend, `eval` failures) are explicit `Except`
  parameters: an `Except.error` value models the Python exception being
  raised by the external collaborator.
* Values of dynamic type (`Dict[str, Any]` request maps) are modelled by
  `PyVal`; calling `.strip()` on a non-string raises, which the embedding
  models as `Except.error`.
-/

/- ===================================================================
   Section 0: Python string primitives
   =================================================================== -/

/-- Python `str.strip()` on a character list: drop leading and trailing
whitespace. -/
def pyStripL (l : List Char) : List Char :=
  ((l.dropWhile Char.isWhitespace).reverse.dropWhile Char.isWhitespace).reverse

/-- Python `str.strip()`. -/
def pyStrip (s : String) : String := String.mk (pyStripL s.data)

/-- Python `str.lower()` (ASCII letters; the code only tests ASCII
keywords). -/
def pyLower (s : String) : String := String.mk (s.data.map Char.toLower)

/-- Python `sub in hay` substring test. -/
def hasSubL (hay sub : List Char) : Bool := decide (sub <:+: hay)

/-- Python `sub in hay` on strings. -/
def hasSub (hay sub : String) : Bool := hasSubL hay.data sub.data

/-- Python `str.split(sep)` for a one-character separator: split on every
occurrence, keeping empty segments (`"a;;b" → ["a","","b"]`,
`"" → [""]`). -/
def splitSep (sep : Char) : List Char → List (List Char)
  | [] => [[]]
  | c :: t =>
    match splitSep sep t with
    | [] => [[c]]
    | h :: r => if c = sep then [] :: h :: r else (c :: h) :: r

/-- Python `str.split("  ")` (the two-space separator used by the page
cleaner), via an accumulator. -/
def splitDblSpaceGo : List Char → List Char → List (List Char)
  | ' ' :: ' ' :: t, acc => acc.reverse :: splitDblSpaceGo t []
  | c :: t, acc => splitDblSpaceGo t (c :: acc)
  | [], acc => [acc.reverse]

/-- Python `str.split("  ")`. -/
def splitDblSpace (l : List Char) : List (List Char) := splitDblSpaceGo l []

/-- Python `str.splitlines()` restricted to the `\n`, `\r`, `\r\n`
terminators (a trailing terminator produces no empty final line). -/
def splitLinesGo : List Char → List Char → List (List Char)
  | [], acc => [acc.reverse]
  | '\r' :: '\n' :: t, acc =>
    acc.reverse :: (if t.isEmpty then [] else splitLinesGo t [])
  | '\r' :: t, acc =>
    acc.reverse :: (if t.isEmpty then [] else splitLinesGo t [])
  | '\n' :: t, acc =>
    acc.reverse :: (if t.isEmpty then [] else splitLinesGo t [])
  | c :: t, acc => splitLinesGo t (c :: acc)

/-- Python `str.splitlines()`. -/
def splitLines (l : List Char) : List (List Char) :=
  if l.isEmpty then [] else splitLinesGo l []

/- ===================================================================
   Section 1: exact rational arithmetic that evaluates in the kernel
   =================================================================== -/

/-- Executable addition on `ℚ` via `Rat.divInt` (the library `Rat.add` is
irreducible and does not reduce in the kernel). -/
def qAdd (a b : ℚ) : ℚ := Rat.divInt (a.num * b.den + b.num * a.den) (a.den * b.den)

/-- Executable subtraction on `ℚ`. -/
def qSub (a b : ℚ) : ℚ := Rat.divInt (a.num * b.den - b.num * a.den) (a.den * b.den)

/-- Executable multiplication on `ℚ`. -/
def qMul (a b : ℚ) : ℚ := Rat.divInt (a.num * b.num) (a.den * b.den)

/-- Executable division on `ℚ` (0 when the divisor is 0, matching the
`/` convention of `ℚ`; the embedding checks for a zero divisor before
dividing, as Python raises there). -/
def qDiv (a b : ℚ) : ℚ := Rat.divInt (a.num * b.den) (b.num * a.den)

/-- Executable negation on `ℚ`. -/
def qNeg (a : ℚ) : ℚ := Rat.divInt (-a.num) a.den

/-- Round `n / d` (for `d > 0`) to the nearest integer, ties to even —
the rounding used by IEEE-754 binary64 and by Python's `round` and
`format`. -/
def rndHE (n d : ℤ) : ℤ :=
  let t := Int.fdiv n d
  let r := n - d * t
  if 2 * r < d then t
  else if d < 2 * r then t + 1
  else if t % 2 = 0 then t else t + 1

/-- Round `q * s` to the nearest integer, ties to even. -/
def scaledRoundHE (q : ℚ) (s : ℕ) : ℤ := rndHE (q.num * s) (q.den : ℤ)

/-- Fuel-indexed `⌊log₂ n⌋` (`0` for `n ≤ 1`); every step halves `n`, so
`n` itself is always enough fuel. -/
def log2Go : ℕ → ℕ → ℕ
  | 0, _ => 0
  | fuel + 1, n => if 2 ≤ n then log2Go fuel (n / 2) + 1 else 0

/-- `⌊log₂ n⌋` for `n ≥ 1`. -/
def natLog2 (n : ℕ) : ℕ := log2Go n n

/-- Round an exact rational to the nearest IEEE-754 binary64 value
(round to nearest, ties to even), returned as the exact rational that
the binary64 denotes.  The embedding applies it wherever the program
creates or combines Python floats.  Overflow to infinity and subnormal
underflow are outside the model: the tools only handle values well
inside the normal range. -/
def roundDbl (q : ℚ) : ℚ :=
  if q.num = 0 then 0
  else
    let a : ℕ := q.num.natAbs
    let d : ℕ := q.den
    let e1 : ℤ := (natLog2 a : ℤ) - (natLog2 d : ℤ)
    let ge : Bool :=
      if 0 ≤ e1 then decide (d * 2 ^ e1.toNat ≤ a) else decide (d ≤ a * 2 ^ (-e1).toNat)
    let e : ℤ := if ge then e1 else e1 - 1
    let s : ℤ := 52 - e
    let m : ℤ :=
      if 0 ≤ s then rndHE ((a : ℤ) * 2 ^ s.toNat) (d : ℤ)
      else rndHE (a : ℤ) ((d : ℤ) * 2 ^ (-s).toNat)
    let v : ℚ :=
      if 0 ≤ s then Rat.divInt m (2 ^ s.toNat) else ((m * 2 ^ (-s).toNat : ℤ) : ℚ)
    if q.num < 0 then qNeg v else v

/-- IEEE binary64 addition on exact float values. -/
def addDbl (a b : ℚ) : ℚ := roundDbl (qAdd a b)

/-- IEEE binary64 subtraction. -/
def subDbl (a b : ℚ) : ℚ := roundDbl (qSub a b)

/-- IEEE binary64 multiplication. -/
def mulDbl (a b : ℚ) : ℚ := roundDbl (qMul a b)

/-- IEEE binary64 division. -/
def divDbl (a b : ℚ) : ℚ := roundDbl (qDiv a b)

/-- Python `round(q, 2)` on a float: correctly rounded to two decimal
digits (ties to even), read back as the nearest binary64. -/
def round2 (q : ℚ) : ℚ := roundDbl (Rat.divInt (scaledRoundHE q 100) 100)

/-- Insert a `,` after every third character of a reversed digit list. -/
def commaGroupRev : List Char → List Char
  | a :: b :: c :: d :: rest => a :: b :: c :: ',' :: commaGroupRev (d :: rest)
  | l => l

/-- Python `f"{n:,}"` for a natural number: decimal digits with thousands
separators. -/
def natCommaStr (n : ℕ) : String :=
  String.mk (commaGroupRev (toString n).data.reverse).reverse

/-- Python `f"{z:,}"` for an integer. -/
def intCommaStr (z : ℤ) : String :=
  (if z < 0 then "-" else "") ++ natCommaStr z.natAbs

/-- Python `f"{q:,.2f}"`: thousands separators and exactly two decimal
places, rounding half to even. -/
def fmtFixed2 (q : ℚ) : String :=
  let m := scaledRoundHE q 100
  (if m < 0 then "-" else "") ++ natCommaStr (m.natAbs / 100) ++ "." ++
    (if m.natAbs % 100 < 10 then "0" else "") ++ toString (m.natAbs % 100)

/-- Exact `|q|`. -/
def qAbs (q : ℚ) : ℚ := Rat.divInt (q.num.natAbs : ℤ) (q.den : ℤ)

/-- `|x| < |y|` on rationals, by cross-multiplication. -/
def qAbsLt (x y : ℚ) : Bool :=
  decide (x.num.natAbs * y.den < y.num.natAbs * x.den)

/-- Fuel-indexed upward scan for `⌊log₁₀ x⌋` (`x ≥ 1`). -/
def e10UpGo : ℕ → ℚ → ℤ → ℤ
  | 0, _, acc => acc
  | fuel + 1, x, acc => if (10 : ℚ) ≤ x then e10UpGo fuel (qDiv x 10) (acc + 1) else acc

/-- Fuel-indexed downward scan for `⌊log₁₀ x⌋` (`0 < x < 1`). -/
def e10DownGo : ℕ → ℚ → ℤ → ℤ
  | 0, _, acc => acc
  | fuel + 1, x, acc => if x < (1 : ℚ) then e10DownGo fuel (qMul x 10) (acc - 1) else acc

/-- `⌊log₁₀ q⌋` for `q > 0` (the decimal exponent of the leading digit);
fuel 400 covers the whole binary64 range. -/
def decExp10 (q : ℚ) : ℤ :=
  if (1 : ℚ) ≤ q then e10UpGo 400 q 0 else e10DownGo 400 q 0

/-- The exact value `c * 10 ^ ex`. -/
def decValue (c : ℤ) (ex : ℤ) : ℚ :=
  if 0 ≤ ex then ((c * 10 ^ ex.toNat : ℤ) : ℚ) else Rat.divInt c (10 ^ (-ex).toNat)

/-- The two `k`-significant-digit decimals bracketing `q > 0`, with their
exact values (`e10 = ⌊log₁₀ q⌋`). -/
def reprCand (q : ℚ) (e10 : ℤ) (k : ℕ) : (ℤ × ℚ) × (ℤ × ℚ) :=
  let p : ℤ := (k : ℤ) - 1 - e10
  let n : ℤ := q.num * 10 ^ p.toNat
  let d : ℤ := (q.den : ℤ) * 10 ^ (-p).toNat
  let t := Int.fdiv n d
  let ex : ℤ := e10 - (k : ℤ) + 1
  ((t, decValue t ex), (t + 1, decValue (t + 1) ex))

/-- Python float `repr` digit search: the fewest significant digits `k`
(starting at 1) such that one of the two bracketing `k`-digit decimals
reads back, via `roundDbl`, as exactly `q`; when both read back, the
nearer one wins (ties to the even digit string), as in CPython's
shortest-repr conversion.  Returns the digit value and the `k` used.
17 digits always round-trip a binary64, so the fuel-exhausted fallback
(nearest 17-digit decimal) is unreachable for float inputs. -/
def searchDigitsGo (q : ℚ) (e10 : ℤ) : ℕ → ℕ → ℤ × ℕ
  | 0, k =>
    let ((c1, v1), (c2, v2)) := reprCand q e10 k
    if qAbsLt (qSub v2 q) (qSub v1 q) then (c2, k) else (c1, k)
  | fuel + 1, k =>
    let ((c1, v1), (c2, v2)) := reprCand q e10 k
    if decide (roundDbl v1 = q) && decide (roundDbl v2 = q) then
      (if qAbsLt (qSub v1 q) (qSub v2 q) then (c1, k)
       else if qAbsLt (qSub v2 q) (qSub v1 q) then (c2, k)
       else if c1 % 2 = 0 then (c1, k) else (c2, k))
    else if decide (roundDbl v1 = q) then (c1, k)
    else if decide (roundDbl v2 = q) then (c2, k)
    else searchDigitsGo q e10 fuel (k + 1)

/-- Strip trailing decimal zeros from a digit value (fuel-indexed). -/
def stripZerosGo : ℕ → ℕ → ℕ
  | 0, c => c
  | fuel + 1, c => if c ≠ 0 ∧ c % 10 = 0 then stripZerosGo fuel (c / 10) else c

/-- `repr` of a positive binary64 value `q`, with thousands separators in
the integer part (Python's `,` format option): shortest round-trip
digits, fixed notation when the decimal exponent is in `[-4, 16)`,
scientific notation (two-digit exponent, no separators) otherwise. -/
def fmtDoubleAbs (q : ℚ) : String :=
  let e10 := decExp10 q
  let ck := searchDigitsGo q e10 17 1
  let m := (toString ck.1.toNat).length
  let e : ℤ := e10 - (ck.2 : ℤ) + (m : ℤ)
  let ds := (toString (stripZerosGo 20 ck.1.toNat)).data
  if -4 ≤ e ∧ e < 16 then
    if 0 ≤ e then
      let ip := ds.take (e.toNat + 1) ++ List.replicate (e.toNat + 1 - ds.length) '0'
      let fp := ds.drop (e.toNat + 1)
      String.mk (commaGroupRev ip.reverse).reverse ++ "." ++
        (if fp.isEmpty then "0" else String.mk fp)
    else
      "0." ++ String.mk (List.replicate ((-e).toNat - 1) '0') ++ String.mk ds
  else
    String.mk (ds.take 1) ++ (if ds.length > 1 then "." ++ String.mk (ds.drop 1) else "") ++
      "e" ++ (if e < 0 then "-" else "+") ++
      (if e.natAbs < 10 then "0" else "") ++ toString e.natAbs

/-- Python `f"{q:,}"` for a float: `repr` with thousands separators. -/
def fmtFloatComma (q : ℚ) : String :=
  if q.num = 0 then "0.0"
  else (if q.num < 0 then "-" else "") ++ fmtDoubleAbs (qAbs q)

/- ===================================================================
   Section 2: calculator_tools.py
   =================================================================== -/

/-- Character class of the token regex `[0-9,]+\.?[0-9]*`'s first part. -/
def isDigitOrComma (c : Char) : Bool := c.isDigit || c = ','

/-- Fuel-indexed scanner for `re.findall(r'[0-9,]+\.?[0-9]*', s)`: a match
starts at a digit or comma, greedily takes `[0-9,]+`, an optional `.`,
then `[0-9]*`. -/
def scanTokensGo : ℕ → List Char → List (List Char)
  | 0, _ => []
  | _, [] => []
  | fuel + 1, c :: rest =>
    if isDigitOrComma c then
      let d1 := rest.takeWhile isDigitOrComma
      match rest.dropWhile isDigitOrComma with
      | '.' :: r2 =>
          (c :: (d1 ++ '.' :: r2.takeWhile Char.isDigit)) ::
            scanTokensGo fuel (r2.dropWhile Char.isDigit)
      | r1 => (c :: d1) :: scanTokensGo fuel r1
    else scanTokensGo fuel rest

/-- `re.findall(r'[0-9,]+\.?[0-9]*', s)`.  Every recursive step of the
scanner consumes at least one character, so `length + 1` fuel always
suffices. -/
def scanTokens (l : List Char) : List (List Char) := scanTokensGo (l.length + 1) l

/-- Value of a digit list read in base 10. -/
def digitsToNat (l : List Char) : ℕ :=
  l.foldl (fun acc c => 10 * acc + (c.toNat - 48)) 0

/-- Python `float(s)` on strings made of digits and at most one dot
(the only shapes the comma-stripped tokens can take): `"12"`, `"12."`,
`".5"`, `"12.5"` parse to the nearest binary64 (CPython's `strtod` is
correctly rounded); `""` and `"."` raise `ValueError` (`none`). -/
def parseDecimal (l : List Char) : Option ℚ :=
  let ip := l.takeWhile Char.isDigit
  match l.dropWhile Char.isDigit with
  | [] => if ip.isEmpty then none else some (roundDbl ((digitsToNat ip : ℤ) : ℚ))
  | '.' :: fp =>
    if fp.all Char.isDigit ∧ ¬(ip.isEmpty ∧ fp.isEmpty) then
      some (roundDbl
        (Rat.divInt (digitsToNat ip * 10 ^ fp.length + digitsToNat fp) (10 ^ fp.length)))
    else none
  | _ => none

/-- `float(token.replace(',', ''))`. -/
def parseTok (t : List Char) : Option ℚ := parseDecimal (t.filter (fun c => c ≠ ','))

/-- Numeric values of the embedded `eval`: Python `int` or `float`
(floats modelled exactly by `ℚ`). -/
inductive CalcVal : Type
  | intV (z : ℤ)
  | floatV (q : ℚ)
deriving DecidableEq, Repr

/-- Exact numeric value of a `CalcVal`. -/
def CalcVal.toQ : CalcVal → ℚ
  | .intV z => (z : ℚ)
  | .floatV q => q

/-- Python float value of a `CalcVal`: `int` operands of a mixed
operation are converted to binary64 first (exact for every value the
tools see; huge `int`s would round). -/
def CalcVal.toD : CalcVal → ℚ
  | .intV z => roundDbl (z : ℚ)
  | .floatV q => q

/-- Python `+`: `int + int` is exact `int`, anything else is binary64
addition. -/
def addV : CalcVal → CalcVal → CalcVal
  | .intV a, .intV b => .intV (a + b)
  | a, b => .floatV (addDbl a.toD b.toD)

/-- Python `-` (binary). -/
def subV : CalcVal → CalcVal → CalcVal
  | .intV a, .intV b => .intV (a - b)
  | a, b => .floatV (subDbl a.toD b.toD)

/-- Python `*`. -/
def mulV : CalcVal → CalcVal → CalcVal
  | .intV a, .intV b => .intV (a * b)
  | a, b => .floatV (mulDbl a.toD b.toD)

/-- Python unary `-` (exact in both representations). -/
def negV : CalcVal → CalcVal
  | .intV a => .intV (-a)
  | .floatV q => .floatV (qNeg q)

/-- `z ^ n` on integers by iterated multiplication (kernel-reducible). -/
def zPowNat (z : ℤ) : ℕ → ℤ
  | 0 => 1
  | n + 1 => z * zPowNat z n

/-- `q ^ n` on rationals by iterated `qMul` (kernel-reducible). -/
def qPowNat (q : ℚ) : ℕ → ℚ
  | 0 => 1
  | n + 1 => qMul q (qPowNat q n)

/-- Failure modes of the embedded `eval`: `ZeroDivisionError`, any other
evaluation/syntax error with a schematic message, or an input the
embedding does not model (floating-point `**` with a non-integral
exponent). -/
inductive EvalErr : Type
  | zeroDiv
  | synErr (msg : String)
  | unmodeled (msg : String)
deriving DecidableEq, Repr

instance {e a : Type} [DecidableEq e] [DecidableEq a] : DecidableEq (Except e a) := fun x y =>
  match x, y with
  | .ok v, .ok w =>
    if h : v = w then isTrue (by rw [h]) else isFalse (fun he => by cases he; exact h rfl)
  | .error v, .error w =>
    if h : v = w then isTrue (by rw [h]) else isFalse (fun he => by cases he; exact h rfl)
  | .ok _, .error _ => isFalse (fun he => by cases he)
  | .error _, .ok _ => isFalse (fun he => by cases he)

/-- Python `/`: true division, always a float; `int / int` is the
correctly rounded quotient of the exact integers (CPython computes it
so), float division is the IEEE quotient; `ZeroDivisionError` on a zero
divisor. -/
def divV (a b : CalcVal) : Except EvalErr CalcVal :=
  if b.toQ = 0 then .error .zeroDiv
  else
    match a, b with
    | .intV x, .intV y => .ok (.floatV (roundDbl (qDiv (x : ℚ) (y : ℚ))))
    | a, b => .ok (.floatV (divDbl a.toD b.toD))

/-- Python `//`: floor division.  `int // int` is exact; with a float
operand the result is the floor of the exact quotient, as a binary64
(CPython computes it through `fmod`, which agrees with that floor);
`ZeroDivisionError` on a zero divisor. -/
def fdivV (a b : CalcVal) : Except EvalErr CalcVal :=
  if b.toQ = 0 then .error .zeroDiv
  else
    match a, b with
    | .intV x, .intV y => .ok (.intV (Int.fdiv x y))
    | a, b =>
      let qa := a.toD
      let qb := b.toD
      .ok (.floatV (roundDbl ((Int.fdiv (qa.num * qb.den) ((qa.den : ℤ) * qb.num) : ℤ) : ℚ)))

/-- Python `**`.  `int ** int` with a non-negative exponent is exact; a
negative integer exponent (or a float operand) goes through C `pow` on
binary64 values, modelled as the correctly rounded power of the exact
operand values — defined only for integral exponents, since a
non-integral exponent would require rounding a transcendental real
(`unmodeled`); `0 ** negative` raises `ZeroDivisionError`. -/
def powV (a b : CalcVal) : Except EvalErr CalcVal :=
  match a, b with
  | .intV x, .intV y =>
    if 0 ≤ y then .ok (.intV (zPowNat x y.toNat))
    else if x = 0 then .error .zeroDiv
    else .ok (.floatV (roundDbl (qDiv 1 (qPowNat (roundDbl (x : ℚ)) (-y).toNat))))
  | a, b =>
    match (match b with
           | .intV y => some y
           | .floatV q => if q.den = 1 then some q.num else none) with
    | none => .error (.unmodeled "non-integral float exponent")
    | some y =>
      if 0 ≤ y then .ok (.floatV (roundDbl (qPowNat a.toD y.toNat)))
      else if a.toD = 0 then .error .zeroDiv
      else .ok (.floatV (roundDbl (qDiv 1 (qPowNat a.toD (-y).toNat))))

/-- Tokens of the sanitised arithmetic language (`dstar` is `**`,
`dslash` is `//`; both exist only when the two operator characters are
adjacent, as in Python's lexer). -/
inductive ATok : Type
  | num (v : CalcVal)
  | plus | minus | star | dstar | slash | dslash | lparen | rparen
deriving DecidableEq, Repr

/-- After an expression-terminating newline (bracket depth 0), CPython's
tokenizer accepts only blank remaining lines: whitespace-only lines
ended by a newline are ignored, but space/tab indentation immediately
before end-of-input raises `IndentationError` (a `SyntaxError`
subclass), and any further token is a syntax error.  Tracks whether the
current column is zero (a form feed resets it). -/
def trailingOk : List Char → Bool → Bool
  | [], colZero => colZero
  | c :: t, _ =>
    if c = '\n' ∨ c = '\r' then trailingOk t true
    else if c = ' ' ∨ c = '\t' then trailingOk t false
    else if c.toNat = 12 then trailingOk t true
    else false

/-- The pre-token phase of CPython's tokenizer on an `eval` source
(after `eval` itself has stripped leading spaces and tabs): blank lines
are skipped; spaces and tabs indent, a form feed resets the column, a
newline starts a fresh line; a first token at a non-zero column is an
`IndentationError` (`none`). -/
def leadIndentGo : List Char → Bool → Option (List Char)
  | [], _ => some []
  | c :: t, ind =>
    if c = ' ' ∨ c = '\t' then leadIndentGo t true
    else if c.toNat = 12 then leadIndentGo t false
    else if c = '\n' ∨ c = '\r' then leadIndentGo t false
    else if ind then none else some (c :: t)

/-- Tokenizer for the sanitised charset `[0-9+\-*/().\s]`, following
CPython's lexer: `**` and `//` are single tokens exactly when the two
characters are adjacent; spaces, tabs and form feeds separate tokens; a
newline inside brackets is an ignored continuation, while a newline at
bracket depth 0 terminates the expression (only blank lines may
follow); the remaining `\s` characters (`\v`, the C1 separators, NEL,
NBSP, the Unicode spaces) survive the sanitiser but are invalid in
Python source; numeric literals are `12`, `12.`, `.5`, `12.5` (a bare
`.` is a syntax error, a literal containing `.` is a float rounded to
binary64, otherwise an exact int); an integer literal with leading
zeros that is not all zeros is a syntax error (Python 3). -/
def tokenizeGo : ℕ → ℕ → List Char → Except EvalErr (List ATok)
  | 0, _, _ => .error (.synErr "invalid syntax")
  | _, _, [] => .ok []
  | fuel + 1, depth, c :: rest =>
    if c = ' ' ∨ c = '\t' ∨ c.toNat = 12 then tokenizeGo fuel depth rest
    else if c = '\n' ∨ c = '\r' then
      if 0 < depth then tokenizeGo fuel depth rest
      else if trailingOk rest true then .ok []
      else .error (.synErr "invalid syntax")
    else if c = '+' then (tokenizeGo fuel depth rest).map (ATok.plus :: ·)
    else if c = '-' then (tokenizeGo fuel depth rest).map (ATok.minus :: ·)
    else if c = '*' then
      match rest with
      | '*' :: r2 => (tokenizeGo fuel depth r2).map (ATok.dstar :: ·)
      | _ => (tokenizeGo fuel depth rest).map (ATok.star :: ·)
    else if c = '/' then
      match rest with
      | '/' :: r2 => (tokenizeGo fuel depth r2).map (ATok.dslash :: ·)
      | _ => (tokenizeGo fuel depth rest).map (ATok.slash :: ·)
    else if c = '(' then (tokenizeGo fuel (depth + 1) rest).map (ATok.lparen :: ·)
    else if c = ')' then (tokenizeGo fuel (depth - 1) rest).map (ATok.rparen :: ·)
    else if c.isDigit ∨ c = '.' then
      let ip := (c :: rest).takeWhile Char.isDigit
      match (c :: rest).dropWhile Char.isDigit with
      | '.' :: r2 =>
        let fp := r2.takeWhile Char.isDigit
        let r3 := r2.dropWhile Char.isDigit
        if ip.isEmpty ∧ fp.isEmpty then .error (.synErr "invalid syntax")
        else
          (tokenizeGo fuel depth r3).map
            (ATok.num (.floatV (roundDbl
              (Rat.divInt (digitsToNat ip * 10 ^ fp.length + digitsToNat fp)
                (10 ^ fp.length)))) :: ·)
      | r1 =>
        if ip.head? == some '0' && !(ip.all (· == '0')) then
          .error (.synErr "leading zeros in decimal integer literals are not permitted")
        else (tokenizeGo fuel depth r1).map (ATok.num (.intV (digitsToNat ip)) :: ·)
    else .error (.synErr "invalid syntax")

/-- Tokenize an `eval` source string: strip the leading spaces and tabs
(`eval` does this to its string argument), reject an indented first
token, then scan. -/
def tokenizeArith (l : List Char) : Except EvalErr (List ATok) :=
  match leadIndentGo (l.dropWhile (fun c => c = ' ' ∨ c = '\t')) false with
  | none => .error (.synErr "unexpected indent")
  | some rest => tokenizeGo (rest.length + 1) 0 rest

mutual

/-- `expr := term (('+' | '-') term)*` — parse and evaluate. -/
def pExpr : ℕ → List ATok → Except EvalErr (CalcVal × List ATok)
  | 0, _ => .error (.synErr "invalid syntax")
  | fuel + 1, ts =>
    match pTerm fuel ts with
    | .error e => .error e
    | .ok (v, rest) => pExprLoop fuel v rest

/-- Left-associated additive loop. -/
def pExprLoop : ℕ → CalcVal → List ATok → Except EvalErr (CalcVal × List ATok)
  | 0, _, _ => .error (.synErr "invalid syntax")
  | fuel + 1, acc, ts =>
    match ts with
    | .plus :: r =>
      match pTerm fuel r with
      | .error e => .error e
      | .ok (w, r') => pExprLoop fuel (addV acc w) r'
    | .minus :: r =>
      match pTerm fuel r with
      | .error e => .error e
      | .ok (w, r') => pExprLoop fuel (subV acc w) r'
    | _ => .ok (acc, ts)

/-- `term := factor (('*' | '/') factor)*` — parse and evaluate. -/
def pTerm : ℕ → List ATok → Except EvalErr (CalcVal × List ATok)
  | 0, _ => .error (.synErr "invalid syntax")
  | fuel + 1, ts =>
    match pFactor fuel ts with
    | .error e => .error e
    | .ok (v, rest) => pTermLoop fuel v rest

/-- Left-associated multiplicative loop (`*`, `/`, `//` have equal
precedence); `/` and `//` can raise `ZeroDivisionError`. -/
def pTermLoop : ℕ → CalcVal → List ATok → Except EvalErr (CalcVal × List ATok)
  | 0, _, _ => .error (.synErr "invalid syntax")
  | fuel + 1, acc, ts =>
    match ts with
    | .star :: r =>
      match pFactor fuel r with
      | .error e => .error e
      | .ok (w, r') => pTermLoop fuel (mulV acc w) r'
    | .slash :: r =>
      match pFactor fuel r with
      | .error e => .error e
      | .ok (w, r') =>
        match divV acc w with
        | .error e => .error e
        | .ok v => pTermLoop fuel v r'
    | .dslash :: r =>
      match pFactor fuel r with
      | .error e => .error e
      | .ok (w, r') =>
        match fdivV acc w with
        | .error e => .error e
        | .ok v => pTermLoop fuel v r'
    | _ => .ok (acc, ts)

/-- `factor := ('+' | '-') factor | power` — Python's unary level: unary
minus binds looser than `**` (`-2**2 = -(2**2)`). -/
def pFactor : ℕ → List ATok → Except EvalErr (CalcVal × List ATok)
  | 0, _ => .error (.synErr "invalid syntax")
  | fuel + 1, ts =>
    match ts with
    | .plus :: r => pFactor fuel r
    | .minus :: r =>
      match pFactor fuel r with
      | .error e => .error e
      | .ok (v, rest) => .ok (negV v, rest)
    | _ => pPower fuel ts

/-- `power := atom ['**' factor]` — right-associative, and the right
operand admits unary signs (`2**-1`); `**` can raise on `0 ** neg`. -/
def pPower : ℕ → List ATok → Except EvalErr (CalcVal × List ATok)
  | 0, _ => .error (.synErr "invalid syntax")
  | fuel + 1, ts =>
    match pAtom fuel ts with
    | .error e => .error e
    | .ok (v, .dstar :: r) =>
      match pFactor fuel r with
      | .error e => .error e
      | .ok (w, r') =>
        match powV v w with
        | .error e => .error e
        | .ok u => .ok (u, r')
    | .ok (v, rest) => .ok (v, rest)

/-- `atom := number | '(' expr ')'`. -/
def pAtom : ℕ → List ATok → Except EvalErr (CalcVal × List ATok)
  | 0, _ => .error (.synErr "invalid syntax")
  | fuel + 1, ts =>
    match ts with
    | .num v :: r => .ok (v, r)
    | .lparen :: r =>
      match pExpr fuel r with
      | .error e => .error e
      | .ok (v, .rparen :: r') => .ok (v, r')
      | .ok _ => .error (.synErr "invalid syntax")
    | _ => .error (.synErr "invalid syntax")

end

/-- Python `eval` restricted to the sanitised arithmetic charset: the
whole token list must be consumed by one expression. -/
def evalArith (l : List Char) : Except EvalErr CalcVal :=
  match tokenizeArith l with
  | .error e => .error e
  | .ok ts =>
    match pExpr (8 * ts.length + 8) ts with
    | .ok (v, []) => .ok v
    | .ok _ => .error (.synErr "invalid syntax")
    | .error e => .error e

/-- The keyword list routing to `_budget_analysis`. -/
def budget_route_keywords : List String :=
  ["budget", "cost", "expense", "total", "monthly", "annual"]

/-- The symbol list routing to `_currency_calculation`, exactly as the
(double-encoded) source file stores it on line 25: `'$'` followed by the
mojibake sequences U+00E2 U+201A U+00AC, U+00C2 U+00A3 and
U+00C2 U+00A5 — not the intended `€`, `£`, `¥`. -/
def currency_route_symbols : List String :=
  ["$", "\u00E2\u201A\u00AC", "\u00C2\u00A3", "\u00C2\u00A5"]

/-- The three dispatch targets of `CalculatorTools.calculate`. -/
inductive CalcPath : Type
  | budget | currency | arithmetic
deriving DecidableEq, Repr

/-- The dispatch of `CalculatorTools.calculate` (after
`expression.strip()`): budget keywords first, then currency markers, else
arithmetic. -/
def classify (expression : String) : CalcPath :=
  let e := pyStrip expression
  if budget_route_keywords.any (fun kw => hasSub (pyLower e) kw) then .budget
  else if currency_route_symbols.any (fun sym => hasSub e sym) ||
      hasSub (pyLower e) "usd" || hasSub (pyLower e) "eur" then .currency
  else .arithmetic

/-- The characters matched by `\s` in a Python 3 `str` regex: the ASCII
whitespace `[ \t\n\r\f\v]`, the C1 separators `\x1c`-`\x1f`, NEL, NBSP,
and the Unicode space characters. -/
def pyRegexSpace (c : Char) : Bool :=
  c = ' ' || c = '\t' || c = '\n' || c = '\r' || c.toNat = 11 || c.toNat = 12 ||
  c.toNat = 28 || c.toNat = 29 || c.toNat = 30 || c.toNat = 31 ||
  c.toNat = 133 || c.toNat = 160 || c.toNat = 5760 ||
  (8192 ≤ c.toNat && c.toNat ≤ 8202) || c.toNat = 8232 || c.toNat = 8233 ||
  c.toNat = 8239 || c.toNat = 8287 || c.toNat = 12288

/-- The character class kept by `re.sub(r'[^0-9+\-*/().\s]', '', e)`. -/
def allowedCalcChar (c : Char) : Bool :=
  c.isDigit || c = '+' || c = '-' || c = '*' || c = '/' || c = '(' || c = ')' ||
    c = '.' || pyRegexSpace c

/-- The sanitisation performed by `_basic_calculation`: the `re.sub`
above followed by `.replace('$', '').replace(',', '')` (the replaces are
no-ops, since `$` and `,` are already outside the kept class). -/
def cleanExpr (l : List Char) : List Char :=
  ((l.filter allowedCalcChar).filter (fun c => c ≠ '$')).filter (fun c => c ≠ ',')

/-- `if isinstance(result, float): int(result) if result.is_integer()
else round(result, 2)`. -/
def normalizeCalcResult : CalcVal → CalcVal
  | .intV z => .intV z
  | .floatV q => if q.den = 1 then .intV q.num else .floatV (round2 q)

/-- `f"{result:,}"`. -/
def formatCalcResult : CalcVal → String
  | .intV z => intCommaStr z
  | .floatV q => fmtFloatComma q

/-- The success template of `_basic_calculation` (the f-string after
`.strip()`), with the sanitised expression and formatted result
interpolated.  All non-ASCII characters are the file's mojibake bytes
(the calculator emoji arrives as U+00F0 U+0178 U+00A7 U+00AE, the check
mark as U+00E2 U+0153 U+2026, the bullets as U+00E2 U+20AC U+00A2). -/
def renderCalcSuccess (cleaned : List Char) (res : String) : String :=
  "\u00F0\u0178\u00A7\u00AE Calculation: " ++ String.mk cleaned ++
    "\n\u00E2\u0153\u2026 Result: " ++ res ++
    "\n\n\u00F0\u0178\u2019\u00A1 Financial Context:\nIf this is for study abroad planning, consider:\n\u00E2\u20AC\u00A2 Tuition fees vary by program and university\n\u00E2\u20AC\u00A2 Living costs depend on city and lifestyle  \n\u00E2\u20AC\u00A2 Include visa, travel, and emergency fund costs\n\u00E2\u20AC\u00A2 Research scholarships and financial aid options"

/-- `CalculatorTools._basic_calculation`.  The cross-mark prefix of the
error strings is the file's mojibake pair U+00E2 U+0152.  `none` marks
the one family of inputs the embedding does not model (a floating-point
`**` with a non-integral exponent); on every modelled input the function
is total and returns the program's string. -/
def basic_calculation (expression : String) : Option String :=
  let cleaned := cleanExpr expression.data
  if cleaned.isEmpty then some "\u00E2\u0152 Invalid mathematical expression"
  else
    match evalArith cleaned with
    | .ok v => some (renderCalcSuccess cleaned (formatCalcResult (normalizeCalcResult v)))
    | .error .zeroDiv => some "\u00E2\u0152 Error: Division by zero"
    | .error (.synErr m) => some ("\u00E2\u0152 Calculation error: " ++ m)
    | .error (.unmodeled _) => none

/-- Fixed rate `exchange_rates['usd_to_eur']`: the binary64 value of the
literal `0.85`. -/
def usd_to_eur : ℚ := roundDbl (Rat.divInt 85 100)

/-- Fixed rate `exchange_rates['usd_to_gbp']` (`0.75`, exact). -/
def usd_to_gbp : ℚ := roundDbl (Rat.divInt 75 100)

/-- Fixed rate `exchange_rates['usd_to_cad']` (`1.25`, exact). -/
def usd_to_cad : ℚ := roundDbl (Rat.divInt 125 100)

/-- Fixed rate `exchange_rates['usd_to_aud']`: the binary64 value of
`1.35`. -/
def usd_to_aud : ℚ := roundDbl (Rat.divInt 135 100)

/-- Fixed rate `exchange_rates['usd_to_jpy']` (`110.0`, exact; unused by
the currency path's output). -/
def usd_to_jpy : ℚ := roundDbl (Rat.divInt 110 1)

/-- Fixed rate `exchange_rates['eur_to_usd']` (`1.18`, unused). -/
def eur_to_usd : ℚ := roundDbl (Rat.divInt 118 100)

/-- Fixed rate `exchange_rates['gbp_to_usd']` (`1.33`, unused). -/
def gbp_to_usd : ℚ := roundDbl (Rat.divInt 133 100)

/-- The success template of `_currency_calculation` (f-string after
`.strip()`); each conversion is an IEEE binary64 product formatted to
two decimals.  The non-ASCII text is the file's mojibake: the EUR line
shows U+00E2 U+201A U+00AC where `€` was meant, the GBP line
U+00C2 U+00A3 (and keeps the source's two trailing spaces), the warning
sign arrives as U+00E2 U+0161 U+00A0 U+00EF U+00B8. -/
def renderCurrencyReport (expression : String) (amount : ℚ) : String :=
  "\u00F0\u0178\u2019\u00B1 Currency Calculation: " ++ expression ++
    "\n\u00F0\u0178\u2019\u00B0 Amount: " ++ fmtFloatComma amount ++
    "\n\n\u00F0\u0178\u201C\u0160 Approximate Conversions (USD base):\n\u00E2\u20AC\u00A2 EUR (Euro): \u00E2\u201A\u00AC" ++
    fmtFixed2 (mulDbl amount usd_to_eur) ++
    "\n\u00E2\u20AC\u00A2 GBP (British Pound): \u00C2\u00A3" ++
    fmtFixed2 (mulDbl amount usd_to_gbp) ++
    "  \n\u00E2\u20AC\u00A2 CAD (Canadian Dollar): C$" ++
    fmtFixed2 (mulDbl amount usd_to_cad) ++
    "\n\u00E2\u20AC\u00A2 AUD (Australian Dollar): A$" ++
    fmtFixed2 (mulDbl amount usd_to_aud) ++
    "\n\n\u00E2\u0161\u00A0\u00EF\u00B8 Note: These are approximate rates. Check current exchange rates for accurate conversions.\nUse xe.com, google.com, or bank websites for real-time rates.\n\n\u00F0\u0178\u2019\u00A1 Study Abroad Tip: Factor in exchange rate fluctuations when budgeting!"

/-- `CalculatorTools._currency_calculation` (mojibake literals as in the
file). -/
def currency_calculation (expression : String) : String :=
  match scanTokens expression.data with
  | [] =>
    "\u00F0\u0178\u2019\u00B1 Currency query: " ++ expression ++
      "\n\u00F0\u0178\u2019\u00A1 Please specify amount and currencies for conversion"
  | n0 :: _ =>
    match parseTok n0 with
    | none => "\u00E2\u0152 Could not parse currency amount"
    | some amount => renderCurrencyReport expression amount

/-- The fixed `budget_categories` list. -/
def budget_categories : List String :=
  ["Tuition & Fees", "Accommodation", "Living Expenses", "Travel & Transport",
   "Books & Supplies", "Personal & Entertainment", "Emergency Fund"]

/-- `budget_categories[i] if i < len(budget_categories) else
f"Item {i+1}"`. -/
def budgetCategoryLabel (i : ℕ) : String :=
  if i < budget_categories.length then budget_categories.getD i ""
  else "Item " ++ toString (i + 1)

/-- The `breakdown` string: empty unless more than one amount, otherwise
a header plus one bullet per amount zipped against the category list
(mojibake header and bullets as in the file). -/
def breakdownFor (amounts : List ℚ) : String :=
  if amounts.length > 1 then
    "\n\u00F0\u0178\u201C\u0160 Budget Breakdown:" ++
      String.join (amounts.enum.map (fun p =>
        "\n\u00E2\u20AC\u00A2 " ++ budgetCategoryLabel p.1 ++ ": $" ++ fmtFixed2 p.2))
  else ""

/-- The success template of `_budget_analysis` (f-string after
`.strip()`): `total = sum(amounts)` is the IEEE binary64 left fold of
the amounts from 0, monthly is `total/12`, weekly `total/52`, both by
binary64 division; all to two decimals.  The non-ASCII text is the
file's mojibake (the check marks of the reminder block arrive as
U+00E2 U+0153 U+201C). -/
def renderBudgetReport (expression : String) (amounts : List ℚ) : String :=
  let total := amounts.foldl addDbl 0
  "\u00F0\u0178\u2019\u00BC Budget Analysis: " ++ expression ++
    "\n\u00F0\u0178\u2019\u00B0 Total Amount: $" ++ fmtFixed2 total ++
    "\n" ++ breakdownFor amounts ++
    "\n\n\u00F0\u0178\u201C\u02C6 Financial Planning:\n\u00E2\u20AC\u00A2 Annual Total: $" ++ fmtFixed2 total ++
    "\n\u00E2\u20AC\u00A2 Monthly Average: $" ++ fmtFixed2 (divDbl total 12) ++
    "\n\u00E2\u20AC\u00A2 Weekly Average: $" ++ fmtFixed2 (divDbl total 52) ++
    "\n\n\u00F0\u0178\u2019\u00A1 Study Abroad Budget Tips:\n\u00E2\u20AC\u00A2 Add 10-20% buffer for unexpected expenses\n\u00E2\u20AC\u00A2 Research local cost of living variations\n\u00E2\u20AC\u00A2 Consider seasonal price fluctuations\n\u00E2\u20AC\u00A2 Look into student discounts and deals\n\u00E2\u20AC\u00A2 Plan for currency exchange fees\n\n\u00E2\u0161\u00A0\u00EF\u00B8 Remember to budget for:\n\u00E2\u0153\u201C Visa application fees\n\u00E2\u0153\u201C Health insurance requirements  \n\u00E2\u0153\u201C Initial setup costs (deposits, etc.)\n\u00E2\u0153\u201C Home visits during breaks"

/-- The template-only response of `_budget_analysis` when no numeric
token is found (f-string after `.strip()`, mojibake literals). -/
def blankBudgetTemplate (expression : String) : String :=
  "\u00F0\u0178\u2019\u00BC Budget Planning Query: " ++ expression ++
    "\n\n\u00F0\u0178\u201C\u2039 Study Abroad Budget Template:\n\u00E2\u20AC\u00A2 Tuition & Fees: $____\n\u00E2\u20AC\u00A2 Accommodation: $____  \n\u00E2\u20AC\u00A2 Food & Groceries: $____\n\u00E2\u20AC\u00A2 Transportation: $____\n\u00E2\u20AC\u00A2 Books & Supplies: $____\n\u00E2\u20AC\u00A2 Personal Expenses: $____\n\u00E2\u20AC\u00A2 Travel & Exploration: $____\n\u00E2\u20AC\u00A2 Emergency Fund: $____\n\n\u00F0\u0178\u2019\u00A1 Use specific numbers for detailed budget analysis!\nExample: \"calculate 35000 + 12000 + 8000 annual budget\""

/-- `CalculatorTools._budget_analysis`.  A `ValueError` while parsing any
token (Python's comprehension stops at the first failure) yields the
could-not-parse message, modelled by `mapM` over `Option`. -/
def budget_analysis (expression : String) : String :=
  let numbers := scanTokens expression.data
  if numbers.isEmpty then blankBudgetTemplate expression
  else
    match numbers.mapM parseTok with
    | none => "\u00E2\u0152 Could not parse numbers in: " ++ expression
    | some amounts => renderBudgetReport expression amounts

/-- `CalculatorTools.calculate`: strip, then dispatch on `classify`.
The budget and currency paths are total; the arithmetic path is `none`
exactly on the unmodelled float-power inputs.  The sub-functions raise
no exception on modelled inputs, so the outer `except` of the source
(whose handler would return a mojibake-prefixed message) is unreachable
in the embedding. -/
def calculate (expression : String) : Option String :=
  match classify expression with
  | .budget => some (budget_analysis (pyStrip expression))
  | .currency => some (currency_calculation (pyStrip expression))
  | .arithmetic => basic_calculation (pyStrip expression)

/- ===================================================================
   Section 3: browser_tools.py
   =================================================================== -/

/-- The fixed `education_keywords` table, in its (insertion-ordered)
dictionary order. -/
def education_keywords : List (String × String) :=
  [("tuition", "Tuition and Fees Information"),
   ("admission", "Admission Requirements"),
   ("scholarship", "Scholarship Opportunities"),
   ("international student", "International Student Services"),
   ("campus", "Campus Information"),
   ("program", "Academic Programs"),
   ("degree", "Degree Options"),
   ("application", "Application Process"),
   ("deadline", "Important Deadlines"),
   ("ranking", "University Rankings"),
   ("accommodation", "Housing and Accommodation"),
   ("visa", "Visa Requirements")]

/-- `[s.strip() for s in text.split('.') if keyword in s.lower()]`. -/
def relevant_sentences (keyword text : String) : List String :=
  ((splitSep '.' text.data).filter
      (fun s => hasSubL (s.map Char.toLower) keyword.data)).map
    (fun s => String.mk (pyStripL s))

/-- The bullet emitted for one keyword:
`f"• {category}: {relevant_sentences[0][:100]}..."`, or nothing when no
sentence contains the keyword. -/
def bulletFor (keyword category text : String) : Option String :=
  match relevant_sentences keyword text with
  | [] => none
  | r0 :: _ => some ("\u2022 " ++ category ++ ": " ++ String.mk (r0.data.take 100) ++ "...")

/-- The `found_info` list: one bullet per table entry whose keyword
occurs in the lower-cased text, in table order. -/
def found_info (text : String) : List String :=
  education_keywords.filterMap (fun kc =>
    if hasSubL (text.data.map Char.toLower) kc.1.data then bulletFor kc.1 kc.2 text
    else none)

/-- `BrowserTools._extract_education_info` (the `soup` argument of the
source is unused; only the cleaned text matters). -/
def extract_education_info (text : String) : String :=
  let fi := found_info text
  if fi.isEmpty then "General university/education website content found."
  else String.intercalate "\n" (fi.take 5)

/-- A fetched page as the embedding sees it: the title element's text, if
any, and the text of the selected main-content region (`none` when no
selector matched and the document has no body). -/
structure Page : Type where
  title : Option String
  mainText : Option String
deriving DecidableEq, Repr

/-- The two exception classes caught by
`scrape_and_summarize_website`: `requests.exceptions.RequestException`
and everything else. -/
inductive ScrapeExc : Type
  | requestExc (msg : String)
  | otherExc (msg : String)
deriving DecidableEq, Repr

/-- The text normalisation of the scraper: split lines, strip each, split
each on double spaces, strip the chunks, drop empties, join with single
spaces. -/
def cleanPageText (raw : String) : String :=
  let lines := (splitLines raw.data).map pyStripL
  let chunks := lines.flatMap (fun line => (splitDblSpace line).map pyStripL)
  String.mk (List.intercalate [' '] (chunks.filter (fun c => ¬ c.isEmpty)))

/-- `BrowserTools.scrape_and_summarize_website`.  The network fetch and
HTML parsing are the external collaborator, passed as an `Except`:
`error` is a raised exception, `ok` the parsed page. -/
def scrape_and_summarize_website (url : String) (fetched : Except ScrapeExc Page) : String :=
  match fetched with
  | .error (.requestExc e) => "\u274C Error accessing " ++ url ++ ": " ++ e
  | .error (.otherExc e) => "\u274C Error processing " ++ url ++ ": " ++ e
  | .ok page =>
    let title_text := match page.title with
      | some t => pyStrip t
      | none => "No title found"
    match page.mainText with
    | none => "Could not extract content from " ++ url
    | some raw =>
      let text0 := cleanPageText raw
      let text := if text0.length > 2000 then String.mk (text0.data.take 2000) ++ "..."
        else text0
      let key_info := extract_education_info text
      pyStrip ("\u1F310 Website: " ++ url ++ "\n\u1F4C4 Title: " ++ title_text ++
        "\n\n\u1F4DD Summary:\n" ++ key_info ++ "\n\n\u1F4CB Full Content Preview:\n" ++
        String.mk (text.data.take 500) ++ (if text.length > 500 then "..." else ""))

/- ===================================================================
   Section 4: search_tools.py
   =================================================================== -/

/-- The JSON fields of the search API response that the tool reads.  A
`RelatedTopics` entry is `some txt` when it is a dictionary carrying a
`Text` field with value `txt`, `none` otherwise. -/
structure SearchData : Type where
  abstract : String
  relatedTopics : List (Option String)
  answer : String
deriving DecidableEq, Repr

/-- `SearchTools.search_internet`.  The HTTP GET / status check / JSON
decode are the external collaborator (`error` = raised exception).
Missing JSON fields are the empty string / empty list, matching Python's
falsiness checks. -/
def search_internet (query : String) (resp : Except String SearchData) : String :=
  match resp with
  | .error e => "Search failed: " ++ e ++ ". Check your internet connection."
  | .ok data =>
    let results : List String :=
      (if data.abstract.isEmpty then [] else ["Summary: " ++ data.abstract]) ++
      (if data.relatedTopics.isEmpty then []
       else "\nRelated Information:" ::
        ((data.relatedTopics.take 3).filterMap (fun t =>
          match t with
          | some txt => if txt.isEmpty then none else some ("\u2022 " ++ txt)
          | none => none))) ++
      (if data.answer.isEmpty then [] else ["\nDirect Answer: " ++ data.answer])
    if results.isEmpty then
      "No detailed results found for '" ++ query ++ "'. Try a more specific search term."
    else String.intercalate "\n" results

/- ===================================================================
   Section 5: main.py — input collection and the flow pipeline
   =================================================================== -/

/-- Values of Python's dynamic type as they can appear in the
`Dict[str, Any]` request map. -/
inductive PyVal : Type
  | str (s : String)
  | int (z : ℤ)
  | boolV (b : Bool)
  | noneV
  | listV (l : List PyVal)
  | tupleV (l : List PyVal)
  | dictV (entries : List (String × PyVal))
deriving Repr

/-- Python `str(v)` (container rendering simplified; the pipeline only
ever applies it to strings and date values, both modelled as `.str`). -/
def pyToStr : PyVal → String
  | .str s => s
  | .int z => toString z
  | .boolV true => "True"
  | .boolV false => "False"
  | .noneV => "None"
  | .listV _ => "[...]"
  | .tupleV _ => "(...)"
  | .dictV _ => "{...}"

/-- `v.strip()`: succeeds only on strings; on anything else Python
raises `AttributeError`. -/
def pyStrStrip : PyVal → Except String String
  | .str s => .ok (pyStrip s)
  | _ => .error "AttributeError: object has no attribute strip"

/-- `[c.strip() for c in cities_val.split(";") if c.strip()]`. -/
def parseCityList (s : String) : List String :=
  (splitSep ';' s.data).filterMap (fun c =>
    let t := pyStripL c
    if t.isEmpty then none else some (String.mk t))

/-- The raw request map: each key either absent or bound to any
`PyVal`. -/
structure RawInputs : Type where
  origin : Option PyVal := none
  cities : Option PyVal := none
  daterange : Option PyVal := none
  interests : Option PyVal := none
  subject : Option PyVal := none
  study_level : Option PyVal := none
  budget_range : Option PyVal := none
  advanced : Option PyVal := none

/-- The normalized planning request produced by `collect_inputs`. -/
structure PlanningRequest : Type where
  origin : String
  cities : List String
  daterange : String × String
  interests : String
  subject : String
  study_level : String
  budget_range : String
  advanced : PyVal

/-- `StudyPlannerFlow.collect_inputs` (identical in `main.py` and
`src/crew.py`): semicolon-split city parsing with trim and filter for a
string value, per-element `str(c).strip()` with filter for a list value,
`[]` otherwise; a date range that is not a 2-element list/tuple falls
back to `(today, today)`; the free-text fields are
`inputs.get(key, "").strip()`, which raises on a present non-string
value. -/
def collect_inputs (inputs : RawInputs) (today : String) : Except String PlanningRequest := do
  let cities_val := inputs.cities.getD (.str "")
  let city_list : List String :=
    match cities_val with
    | .str s => parseCityList s
    | .listV l => l.filterMap (fun c =>
        let t := pyStripL (pyToStr c).data
        if t.isEmpty then none else some (String.mk t))
    | _ => []
  let time_range : String × String :=
    match inputs.daterange with
    | some (.listV [a, b]) => (pyToStr a, pyToStr b)
    | some (.tupleV [a, b]) => (pyToStr a, pyToStr b)
    | _ => (today, today)
  let origin ← pyStrStrip (inputs.origin.getD (.str ""))
  let interests ← pyStrStrip (inputs.interests.getD (.str ""))
  let subject ← pyStrStrip (inputs.subject.getD (.str ""))
  let study_level ← pyStrStrip (inputs.study_level.getD (.str ""))
  let budget_range ← pyStrStrip (inputs.budget_range.getD (.str ""))
  return { origin := origin, cities := city_list, daterange := time_range,
           interests := interests, subject := subject, study_level := study_level,
           budget_range := budget_range, advanced := inputs.advanced.getD (.dictV []) }

/-- The three per-stage delegate calls (`crew.kickoff()` of the
single-agent crews): each consumes the normalized request plus the
verbatim texts of the earlier stages and either returns generated text or
raises. -/
structure StageDelegates : Type where
  university_research : PlanningRequest → Except String String
  local_living_guide : PlanningRequest → String → Except String String
  timeline_and_budget : PlanningRequest → String → String → Except String String

/-- The final assembly of `run_flow_pipeline`: three fixed `##` section
headers in stage order, joined by horizontal rules (`safe_decode` is the
identity on strings). -/
def assembleStudyPlan (uni localGuide timeline : String) : String :=
  "## University Research\n\n" ++ uni ++ "\n\n---\n\n## Local Living Guide\n\n" ++
    localGuide ++ "\n\n---\n\n## Timeline & Budget Plan\n\n" ++ timeline

/-- `run_flow_pipeline`: the four stages run strictly in sequence inside
one `try`; the first raised exception aborts the run and produces
`f"Error: {e}"` instead of a plan. -/
def run_flow_pipeline (d : StageDelegates) (raw : RawInputs) (today : String) : String :=
  match collect_inputs raw today with
  | .error e => "Error: " ++ e
  | .ok req =>
    match d.university_research req with
    | .error e => "Error: " ++ e
    | .ok uni =>
      match d.local_living_guide req uni with
      | .error e => "Error: " ++ e
      | .ok localGuide =>
        match d.timeline_and_budget req uni localGuide with
        | .error e => "Error: " ++ e
        | .ok timeline => assembleStudyPlan uni localGuide timeline

/- ===================================================================
   Section 6: spec-side definitions (written from the specification's
   wording, to be compared with the code-side definitions above)
   =================================================================== -/

/-- Spec §4.2: the budget keyword set. -/
def specBudgetKeywords : List String :=
  ["budget", "cost", "expense", "total", "monthly", "annual"]

/-- Spec §4.2: the currency symbol set. -/
def specCurrencySymbols : List String := ["$", "\u20AC", "\u00A3", "\u00A5"]

/-- Spec: "the lower-cased text contains any of {budget, cost, expense,
total, monthly, annual}". -/
def specHasBudgetKeyword (s : String) : Prop :=
  ∃ kw ∈ specBudgetKeywords, kw.data <:+: (pyLower s).data

/-- Spec: "it contains a currency symbol from {$, €, £, ¥} or the
substrings \"usd\"/\"eur\" (case-insensitive)". -/
def specHasCurrencyMarker (s : String) : Prop :=
  (∃ sym ∈ specCurrencySymbols, sym.data <:+: s.data) ∨
    "usd".data <:+: (pyLower s).data ∨ "eur".data <:+: (pyLower s).data

/-- Spec §8: split on semicolons, trim whitespace from each segment, drop
empty segments. -/
def specCitySplit (s : String) : List String :=
  ((splitSep ';' s.data).map (fun c => String.mk (pyStripL c))).filter (fun t => t ≠ "")

/-- Spec §4.2: the fixed 7-label budget category list. -/
def specBudgetCategories : List String :=
  ["Tuition & Fees", "Accommodation", "Living Expenses", "Travel & Transport",
   "Books & Supplies", "Personal & Entertainment", "Emergency Fund"]

/-- Spec: amounts are zipped positionally against the 7 labels, "with
amounts beyond the 7th labeled \"Item N\"". -/
def specBudgetLabel (i : ℕ) : String :=
  if i < 7 then specBudgetCategories.getD i "" else "Item " ++ toString (i + 1)

/-- A request-map value that is a string or absent — the domain on which
the free-text fields of `collect_inputs` cannot raise. -/
def isStrOrAbsent : Option PyVal → Bool
  | none => true
  | some (.str _) => true
  | some _ => false

/- ===================================================================
   Helper lemmas
   =================================================================== -/

set_option maxRecDepth 100000

lemma toNat_ofNat_valid (n : ℕ) (h : n < 55296) : (Char.ofNat n).toNat = n := by
  unfold Char.ofNat
  rw [dif_pos (Or.inl h)]
  rfl

lemma toLower_toNat (c : Char) :
    (Char.toLower c).toNat = if 65 ≤ c.toNat ∧ c.toNat ≤ 90 then c.toNat + 32 else c.toNat := by
  by_cases h : 65 ≤ c.toNat ∧ c.toNat ≤ 90
  · rw [if_pos h]
    unfold Char.toLower
    simp only
    rw [if_pos ⟨h.1, h.2⟩]
    exact toNat_ofNat_valid _ (by omega)
  · rw [if_neg h]
    unfold Char.toLower
    simp only
    rw [if_neg (by exact fun hc => h ⟨hc.1, hc.2⟩)]

lemma char_toNat_inj {c d : Char} (h : c.toNat = d.toNat) : c = d := by
  apply Char.eq_of_val_eq
  apply UInt32.eq_of_toBitVec_eq
  exact BitVec.eq_of_toNat_eq h

lemma isWhitespace_eq_false_of_toNat {d : Char} (h : 64 < d.toNat) : d.isWhitespace = false := by
  have hs : ∀ (e : Char), e.toNat < 64 → d ≠ e := by
    intro e he hde
    subst hde
    omega
  simp only [Char.isWhitespace]
  rw [decide_eq_false (hs ' ' (by decide)), decide_eq_false (hs '\t' (by decide)),
      decide_eq_false (hs '\r' (by decide)), decide_eq_false (hs '\n' (by decide))]
  rfl

lemma toLower_of_isWhitespace {c : Char} (h : c.isWhitespace = true) : Char.toLower c = c := by
  apply char_toNat_inj
  rw [toLower_toNat, if_neg]
  intro hc
  have : c.isWhitespace = false := isWhitespace_eq_false_of_toNat (by omega)
  rw [h] at this
  exact Bool.true_eq_false.mp this

lemma seg_reverse_iff (x y : List Char) : x <:+: y.reverse ↔ x.reverse <:+: y := by
  rw [show (x <:+: y.reverse ↔ x.reverse.reverse <:+: y.reverse) from by rw [List.reverse_reverse]]
  exact List.reverse_infix

lemma seg_map_dropWhile (f : Char → Char) (hf : ∀ c, c.isWhitespace = true → f c = c)
    (kw : List Char) (hne : kw ≠ []) (hws : ∀ c ∈ kw, c.isWhitespace = false) :
    ∀ l : List Char,
      (kw <:+: (l.dropWhile Char.isWhitespace).map f ↔ kw <:+: l.map f)
  | [] => Iff.rfl
  | c :: t => by
    by_cases hw : c.isWhitespace
    · rw [List.dropWhile_cons, if_pos hw]
      rw [seg_map_dropWhile f hf kw hne hws t]
      simp only [List.map_cons]
      rw [ List.infix_cons_iff]
      constructor
      · exact Or.inr
      · rintro (hp | hi)
        · exfalso
          match kw, hne with
          | k0 :: kw', _ =>
            rw [ List.cons_prefix_cons] at hp
            have hk : k0.isWhitespace = false := hws k0 (by simp)
            rw [hp.1, hf c hw, hw] at hk
            exact Bool.true_eq_false.mp hk
        · exact hi
    · rw [List.dropWhile_cons, if_neg hw]

lemma seg_map_pyStrip (f : Char → Char) (hf : ∀ c, c.isWhitespace = true → f c = c)
    (kw : List Char) (hne : kw ≠ []) (hws : ∀ c ∈ kw, c.isWhitespace = false)
    (l : List Char) : kw <:+: (pyStripL l).map f ↔ kw <:+: l.map f := by
  have hner : kw.reverse ≠ [] := by simpa using hne
  have hwsr : ∀ c ∈ kw.reverse, c.isWhitespace = false := by
    intro c hc
    exact hws c (List.mem_reverse.mp hc)
  unfold pyStripL
  rw [List.map_reverse, seg_reverse_iff,
      seg_map_dropWhile f hf kw.reverse hner hwsr,
      List.map_reverse, seg_reverse_iff, List.reverse_reverse,
      seg_map_dropWhile f hf kw hne hws]

lemma seg_pyStrip (kw : List Char) (hne : kw ≠ []) (hws : ∀ c ∈ kw, c.isWhitespace = false)
    (l : List Char) : kw <:+: pyStripL l ↔ kw <:+: l := by
  have h := seg_map_pyStrip id (fun _ _ => rfl) kw hne hws l
  simpa using h

lemma seg_lower_pyStrip (kw : List Char) (hne : kw ≠ []) (hws : ∀ c ∈ kw, c.isWhitespace = false)
    (l : List Char) :
    kw <:+: (pyStripL l).map Char.toLower ↔ kw <:+: l.map Char.toLower :=
  seg_map_pyStrip Char.toLower (fun _ hc => toLower_of_isWhitespace hc) kw hne hws l

lemma qAdd_eq (a b : ℚ) : qAdd a b = a + b := by
  unfold qAdd
  have ha : ((a.den : ℤ) : ℚ) ≠ 0 := by exact_mod_cast a.den_nz
  have hb : ((b.den : ℤ) : ℚ) ≠ 0 := by exact_mod_cast b.den_nz
  rw [Rat.divInt_eq_div]
  conv_rhs => rw [← Rat.num_div_den a, ← Rat.num_div_den b]
  push_cast at ha hb ⊢
  field_simp
  try ring

lemma qSub_eq (a b : ℚ) : qSub a b = a - b := by
  unfold qSub
  have ha : ((a.den : ℤ) : ℚ) ≠ 0 := by exact_mod_cast a.den_nz
  have hb : ((b.den : ℤ) : ℚ) ≠ 0 := by exact_mod_cast b.den_nz
  rw [Rat.divInt_eq_div]
  conv_rhs => rw [← Rat.num_div_den a, ← Rat.num_div_den b]
  push_cast at ha hb ⊢
  field_simp
  try ring

lemma qMul_eq (a b : ℚ) : qMul a b = a * b := by
  unfold qMul
  have ha : ((a.den : ℤ) : ℚ) ≠ 0 := by exact_mod_cast a.den_nz
  have hb : ((b.den : ℤ) : ℚ) ≠ 0 := by exact_mod_cast b.den_nz
  rw [Rat.divInt_eq_div]
  conv_rhs => rw [← Rat.num_div_den a, ← Rat.num_div_den b]
  push_cast at ha hb ⊢
  field_simp
  try ring

lemma qNeg_eq (a : ℚ) : qNeg a = -a := by
  unfold qNeg
  have ha : ((a.den : ℤ) : ℚ) ≠ 0 := by exact_mod_cast a.den_nz
  rw [Rat.divInt_eq_div]
  conv_rhs => rw [← Rat.num_div_den a]
  push_cast at ha ⊢
  field_simp
  try ring

lemma qDiv_eq (a b : ℚ) : qDiv a b = a / b := by
  unfold qDiv
  rw [Rat.divInt_eq_div]
  push_cast
  rw [mul_comm ((b.num : ℚ)) ((a.den : ℚ)), ← div_mul_div_comm, Rat.num_div_den a]
  conv_rhs => rw [div_eq_mul_inv, ← Rat.num_div_den b, inv_div]

lemma foldl_qAdd_eq_sum (l : List ℚ) : ∀ a : ℚ, l.foldl qAdd a = a + l.sum := by
  induction l with
  | nil => intro a; simp
  | cons q t ih =>
    intro a
    simp only [List.foldl_cons, List.sum_cons, ih, qAdd_eq]
    ring

lemma keyword_strip_iff (kw s : String) (hne : kw.data ≠ [])
    (hws : ∀ c ∈ kw.data, c.isWhitespace = false) :
    hasSub (pyLower (pyStrip s)) kw = true ↔ kw.data <:+: (pyLower s).data := by
  simp only [hasSub, hasSubL, decide_eq_true_eq]
  exact seg_lower_pyStrip kw.data hne hws s.data

lemma symbol_strip_iff (sym s : String) (hne : sym.data ≠ [])
    (hws : ∀ c ∈ sym.data, c.isWhitespace = false) :
    hasSub (pyStrip s) sym = true ↔ sym.data <:+: s.data := by
  simp only [hasSub, hasSubL, decide_eq_true_eq]
  exact seg_pyStrip sym.data hne hws s.data

lemma budget_cond_iff (s : String) :
    (budget_route_keywords.any fun kw => hasSub (pyLower (pyStrip s)) kw) = true ↔
      specHasBudgetKeyword s := by
  rw [List.any_eq_true]
  have hprops : ∀ kw ∈ budget_route_keywords,
      kw.data ≠ [] ∧ ∀ c ∈ kw.data, c.isWhitespace = false := by decide
  have hlists : budget_route_keywords = specBudgetKeywords := rfl
  unfold specHasBudgetKeyword
  rw [← hlists]
  constructor
  · rintro ⟨kw, hkw, h⟩
    exact ⟨kw, hkw, (keyword_strip_iff kw s (hprops kw hkw).1 (hprops kw hkw).2).mp h⟩
  · rintro ⟨kw, hkw, h⟩
    exact ⟨kw, hkw, (keyword_strip_iff kw s (hprops kw hkw).1 (hprops kw hkw).2).mpr h⟩

/-- C2 (code bug): the classification-precedence claim fails on its
currency clause.  The budget half holds for every string: a budget
keyword in the lower-cased text routes to the Budget path.  But the
symbol list of `calculate` is stored double-encoded: line 25 of the file
contains `'$'` plus the mojibake sequences U+00E2 U+201A U+00AC,
U+00C2 U+00A3 and U+00C2 U+00A5 instead of `€`, `£`, `¥`.  The spec's
input `"€100"` — which carries the currency symbol `€` and must route to
Currency — therefore routes to Arithmetic and is answered with an
arithmetic calculation on the sanitised string `"100"`, while only the
mojibake text (U+00E2 U+201A U+00AC followed by `100`) reaches the
Currency path; `$` and the `usd`/`eur` substrings still route to
Currency. -/
theorem classification_mojibake_divergence :
    (∀ s : String, specHasBudgetKeyword s →
      classify s = CalcPath.budget ∧ calculate s = some (budget_analysis (pyStrip s))) ∧
    currency_route_symbols ≠ specCurrencySymbols ∧
    specHasCurrencyMarker "\u20AC100" ∧
    ¬ specHasBudgetKeyword "\u20AC100" ∧
    classify "\u20AC100" = CalcPath.arithmetic ∧
    calculate "\u20AC100" = some (renderCalcSuccess "100".data "100") ∧
    classify "\u00E2\u201A\u00AC100" = CalcPath.currency ∧
    calculate "\u00E2\u201A\u00AC100" =
      some (renderCurrencyReport "\u00E2\u201A\u00AC100" 100) ∧
    classify "$100" = CalcPath.currency ∧
    classify "100 usd" = CalcPath.currency := by
  refine ⟨fun s h => ?_, by decide, by unfold specHasCurrencyMarker; decide,
    by unfold specHasBudgetKeyword; decide, by decide, by decide, by decide, by decide,
    by decide, by decide⟩
  have hb' : (budget_route_keywords.any fun kw => hasSub (pyLower (pyStrip s)) kw) = true :=
    (budget_cond_iff s).mpr h
  have hcls : classify s = CalcPath.budget := by
    simp [classify, hb']
  exact ⟨hcls, by unfold calculate; rw [hcls]⟩

/-- Witness for C2's general budget-precedence conjunct at an input
carrying both a budget keyword and a spec currency symbol: the Budget
path wins. -/
theorem classification_mojibake_divergence_witness :
    specHasBudgetKeyword "budget \u20AC100" ∧ classify "budget \u20AC100" = CalcPath.budget ∧
      calculate "budget \u20AC100" = some (budget_analysis (pyStrip "budget \u20AC100")) := by
  have h : specHasBudgetKeyword "budget \u20AC100" := by
    unfold specHasBudgetKeyword
    decide
  have h2 := classification_mojibake_divergence.1 "budget \u20AC100" h
  exact ⟨h, h2.1, h2.2⟩

lemma seg_append_right (x : List Char) (hne : x ≠ []) :
    ∀ (a b : List Char), (∀ c ∈ a, x.head? ≠ some c) → x <:+: a ++ b → x <:+: b
  | [], _, _, h => h
  | d :: a', b, hnotin, h => by
    rw [List.cons_append, List.infix_cons_iff] at h
    rcases h with hp | hi
    · exfalso
      match x, hne, hp with
      | x0 :: x', _, hp =>
        rw [ List.cons_prefix_cons] at hp
        have hh : (x0 :: x').head? = some d := by rw [hp.1]; rfl
        exact hnotin d (by simp) hh
    · exact seg_append_right x hne a' b (fun c hc => hnotin c (by simp [hc])) hi

/-- C1: pipeline fail-fast.  When the stage-2 delegate (the local living
guide) raises, the run reports `Error: <cause>` instead of a plan, the
result does not depend on the stage-3 delegate (so no later stage
executes), no assembled multi-section document is produced, and the
output contains no Local Living Guide or Timeline & Budget Plan section
header (unless the error text itself carries one). -/
theorem pipeline_fail_fast (d : StageDelegates) (raw : RawInputs) (today : String)
    (req : PlanningRequest) (uni e : String)
    (h0 : collect_inputs raw today = .ok req)
    (h1 : d.university_research req = .ok uni)
    (h2 : d.local_living_guide req uni = .error e) :
    run_flow_pipeline d raw today = "Error: " ++ e ∧
    (∀ t', run_flow_pipeline { d with timeline_and_budget := t' } raw today = "Error: " ++ e) ∧
    (∀ a b c, run_flow_pipeline d raw today ≠ assembleStudyPlan a b c) ∧
    (¬ ("## Local Living Guide".data <:+: e.data) →
      ¬ ("## Local Living Guide".data <:+: (run_flow_pipeline d raw today).data)) ∧
    (¬ ("## Timeline & Budget Plan".data <:+: e.data) →
      ¬ ("## Timeline & Budget Plan".data <:+: (run_flow_pipeline d raw today).data)) := by
  have hrun : run_flow_pipeline d raw today = "Error: " ++ e := by
    unfold run_flow_pipeline
    rw [h0]
    simp only [h1, h2]
  refine ⟨hrun, ?_, ?_, ?_, ?_⟩
  · intro t'
    unfold run_flow_pipeline
    rw [h0]
    simp only [h1, h2]
  · intro a b c hEq
    rw [hrun] at hEq
    have hx : ("Error: " ++ e).data.head? = some 'E' := rfl
    rw [hEq] at hx
    have hy : (assembleStudyPlan a b c).data.head? = some '#' := rfl
    rw [hy] at hx
    exact absurd hx (by decide)
  · intro hnot hin
    rw [hrun] at hin
    have hsplit : ("Error: " ++ e).data = "Error: ".data ++ e.data := rfl
    rw [hsplit] at hin
    exact hnot (seg_append_right _ (by decide) _ _ (by decide) hin)
  · intro hnot hin
    rw [hrun] at hin
    have hsplit : ("Error: " ++ e).data = "Error: ".data ++ e.data := rfl
    rw [hsplit] at hin
    exact hnot (seg_append_right _ (by decide) _ _ (by decide) hin)

/-- Witness for C1: a concrete run whose local-living-guide delegate
fails. -/
theorem pipeline_fail_fast_witness :
    run_flow_pipeline
        ⟨fun _ => .ok "university report", fun _ _ => .error "backend unavailable",
          fun _ _ _ => .ok "unused"⟩ {} "2026-01-01" = "Error: backend unavailable" ∧
    (∀ a b c, run_flow_pipeline
        ⟨fun _ => .ok "university report", fun _ _ => .error "backend unavailable",
          fun _ _ _ => .ok "unused"⟩ {} "2026-01-01" ≠ assembleStudyPlan a b c) := by
  have h := pipeline_fail_fast
    ⟨fun _ => .ok "university report", fun _ _ => .error "backend unavailable",
      fun _ _ _ => .ok "unused"⟩ {} "2026-01-01"
    { origin := "", cities := [], daterange := ("2026-01-01", "2026-01-01"),
      interests := "", subject := "", study_level := "", budget_range := "",
      advanced := .dictV [] } "university report" "backend unavailable" rfl rfl rfl
  exact ⟨h.1, h.2.2.1⟩

/-- C3: the three leaf tools never propagate an exception — every failure
outcome of the external collaborator (or of the embedded `eval`) is
converted at the tool boundary into a descriptive error string, so the
caller always receives a string.  The scraper's strings are the clean
`❌`-prefixed literals of `browser_tools.py`; the calculator's carry the
mojibake cross-mark prefix U+00E2 U+0152 of its double-encoded file. -/
theorem tools_convert_failures_to_strings (q url s m e : String) :
    search_internet q (.error e) =
      "Search failed: " ++ e ++ ". Check your internet connection." ∧
    scrape_and_summarize_website url (.error (.requestExc e)) =
      "\u274C Error accessing " ++ url ++ ": " ++ e ∧
    scrape_and_summarize_website url (.error (.otherExc e)) =
      "\u274C Error processing " ++ url ++ ": " ++ e ∧
    (classify s = CalcPath.arithmetic → cleanExpr (pyStrip s).data ≠ [] →
      evalArith (cleanExpr (pyStrip s).data) = .error (.synErr m) →
      calculate s = some ("\u00E2\u0152 Calculation error: " ++ m)) ∧
    (classify s = CalcPath.arithmetic → cleanExpr (pyStrip s).data ≠ [] →
      evalArith (cleanExpr (pyStrip s).data) = .error .zeroDiv →
      calculate s = some "\u00E2\u0152 Error: Division by zero") ∧
    (classify s = CalcPath.budget ∨ classify s = CalcPath.currency →
      ∃ r : String, calculate s = some r) := by
  refine ⟨rfl, rfl, rfl, fun hcls hne hev => ?_, fun hcls hne hev => ?_, fun hcls => ?_⟩
  · unfold calculate
    rw [hcls]
    unfold basic_calculation
    rw [if_neg (by simpa using hne)]
    rw [hev]
  · unfold calculate
    rw [hcls]
    unfold basic_calculation
    rw [if_neg (by simpa using hne)]
    rw [hev]
  · rcases hcls with hcls | hcls
    · exact ⟨_, by unfold calculate; rw [hcls]⟩
    · exact ⟨_, by unfold calculate; rw [hcls]⟩

/-- Witness for C3: a network failure, a scrape failure and a division
by zero in the arithmetic path all come back as strings, and a budget
query always yields a string. -/
theorem tools_convert_failures_to_strings_witness :
    search_internet "tuition fees" (.error "connection refused") =
      "Search failed: connection refused. Check your internet connection." ∧
    scrape_and_summarize_website "http://u.example" (.error (.requestExc "timeout")) =
      "\u274C Error accessing http://u.example: timeout" ∧
    calculate "10/0" = some "\u00E2\u0152 Error: Division by zero" ∧
    (∃ r : String, calculate "budget plan" = some r) := by
  have h := tools_convert_failures_to_strings "tuition fees" "http://u.example"
    "10/0" "m" "connection refused"
  have hb := tools_convert_failures_to_strings "tuition fees" "http://u.example"
    "budget plan" "m" "connection refused"
  refine ⟨h.1, ?_, h.2.2.2.2.1 (by decide) (by decide) (by decide),
    hb.2.2.2.2.2 (Or.inl (by decide))⟩
  exact (tools_convert_failures_to_strings "tuition fees" "http://u.example"
     "10/0" "m" "timeout").2.1

/-- C4: the arithmetic path.  An empty sanitised string yields the
invalid-expression error (with the file's mojibake cross-mark prefix);
`evaluate("2 + 2")` renders result `4` (an integer, not `4.0`) followed
by the fixed financial-advice block; the sanitised charset's full
operator set is honoured with Python's semantics — `2**3` gives `8` and
`10//4` gives `2` (both integers), `10/4` the binary64 `2.5`; a
whole-valued float result is normalised to an integer and any other
float is rounded to two decimal places before rendering; `"10/0"`
yields the division-by-zero error text rather than a crash. -/
theorem arithmetic_path_behavior :
    (∀ s : String, classify s = CalcPath.arithmetic → cleanExpr (pyStrip s).data = [] →
      calculate s = some "\u00E2\u0152 Invalid mathematical expression") ∧
    calculate "2 + 2" = some (renderCalcSuccess "2 + 2".data "4") ∧
    calculate "2 + 2" =
      some "\u00F0\u0178\u00A7\u00AE Calculation: 2 + 2\n\u00E2\u0153\u2026 Result: 4\n\n\u00F0\u0178\u2019\u00A1 Financial Context:\nIf this is for study abroad planning, consider:\n\u00E2\u20AC\u00A2 Tuition fees vary by program and university\n\u00E2\u20AC\u00A2 Living costs depend on city and lifestyle  \n\u00E2\u20AC\u00A2 Include visa, travel, and emergency fund costs\n\u00E2\u20AC\u00A2 Research scholarships and financial aid options" ∧
    calculate "2**3" = some (renderCalcSuccess "2**3".data "8") ∧
    calculate "10//4" = some (renderCalcSuccess "10//4".data "2") ∧
    calculate "10/4" = some (renderCalcSuccess "10/4".data "2.5") ∧
    (∀ z : ℤ, formatCalcResult (normalizeCalcResult (.floatV (z : ℚ))) = intCommaStr z) ∧
    (∀ q : ℚ, q.den ≠ 1 →
      formatCalcResult (normalizeCalcResult (.floatV q)) = fmtFloatComma (round2 q)) ∧
    calculate "10/0" = some "\u00E2\u0152 Error: Division by zero" := by
  refine ⟨fun s hcls hclean => ?_, by decide, by decide, by decide, by decide, by decide,
    fun z => ?_, fun q hq => ?_, by decide⟩
  · unfold calculate
    rw [hcls]
    unfold basic_calculation
    rw [if_pos (by simpa using hclean)]
  · have h1 : normalizeCalcResult (.floatV ((z : ℤ) : ℚ)) = .intV z := by
      simp [normalizeCalcResult]
    rw [h1]
    rfl
  · have h1 : normalizeCalcResult (.floatV q) = .floatV (round2 q) := by
      simp [normalizeCalcResult, hq]
    rw [h1]
    rfl

/-- Witness for C4: an input whose sanitised form is empty takes the
invalid-expression branch, a whole-valued float is normalised to an
integer, and a non-whole float rounds to two decimals. -/
theorem arithmetic_path_behavior_witness :
    calculate "abc" = some "\u00E2\u0152 Invalid mathematical expression" ∧
    formatCalcResult (normalizeCalcResult (.floatV ((4 : ℤ) : ℚ))) = intCommaStr 4 ∧
    formatCalcResult (normalizeCalcResult (.floatV (mkRat 5 2))) =
      fmtFloatComma (round2 (mkRat 5 2)) := by
  refine ⟨arithmetic_path_behavior.1 "abc" (by decide) (by decide),
    arithmetic_path_behavior.2.2.2.2.2.2.1 4,
    arithmetic_path_behavior.2.2.2.2.2.2.2.1 (mkRat 5 2) (by decide)⟩

/-- C5: the budget path.  For every input routed to Budget whose tokens
all parse, the output is the budget report rendered from the parsed
amounts: its total is Python's `sum` of the amounts (the IEEE binary64
left fold from 0), a breakdown appears only when more than one amount is
present, amounts are zipped positionally against the fixed 7-label
category list with overflow labelled `Item N`, and annual/monthly/weekly
figures are `total`, `total/12`, `total/52` (binary64 divisions) to two
decimals.  Concretely, `budget 1000, 2000, 3000` totals `6,000.00` with
monthly `500.00`, weekly `115.38` and a 3-row breakdown using the first
three labels in order; and the float model is the program's: for
`budget 0.295` the rendered total is `0.29` (the binary64 nearest 0.295
lies just below the decimal midpoint), where exact-rational rounding
would print `0.30`. -/
theorem budget_path_behavior :
    (∀ (s : String) (amounts : List ℚ), classify s = CalcPath.budget →
      scanTokens (pyStrip s).data ≠ [] →
      (scanTokens (pyStrip s).data).mapM parseTok = some amounts →
      calculate s = some (renderBudgetReport (pyStrip s) amounts)) ∧
    (∀ i : ℕ, budgetCategoryLabel i = specBudgetLabel i) ∧
    (∀ amounts : List ℚ, amounts.length ≤ 1 → breakdownFor amounts = "") ∧
    (∀ amounts : List ℚ, 1 < amounts.length → breakdownFor amounts =
      "\n\u00F0\u0178\u201C\u0160 Budget Breakdown:" ++ String.join (amounts.enum.map (fun p =>
        "\n\u00E2\u20AC\u00A2 " ++ specBudgetLabel p.1 ++ ": $" ++ fmtFixed2 p.2))) ∧
    calculate "budget 1000, 2000, 3000" =
      some (renderBudgetReport "budget 1000, 2000, 3000" [1000, 2000, 3000]) ∧
    ([1000, 2000, 3000] : List ℚ).foldl addDbl 0 = 6000 ∧
    fmtFixed2 ((6000 : ℚ)) = "6,000.00" ∧
    fmtFixed2 (divDbl 6000 12) = "500.00" ∧
    fmtFixed2 (divDbl 6000 52) = "115.38" ∧
    breakdownFor [1000, 2000, 3000] =
      "\n\u00F0\u0178\u201C\u0160 Budget Breakdown:\n\u00E2\u20AC\u00A2 Tuition & Fees: $1,000.00\n\u00E2\u20AC\u00A2 Accommodation: $2,000.00\n\u00E2\u20AC\u00A2 Living Expenses: $3,000.00" ∧
    calculate "budget 0.295" =
      some (renderBudgetReport "budget 0.295" [roundDbl (Rat.divInt 295 1000)]) ∧
    fmtFixed2 ([roundDbl (Rat.divInt 295 1000)].foldl addDbl 0) = "0.29" ∧
    fmtFixed2 (Rat.divInt 295 1000) = "0.30" := by
  refine ⟨fun s amounts hcls hne hmap => ?_, fun i => rfl,
    fun amounts hle => ?_, fun amounts hgt => ?_, by decide, by decide, by decide,
    by decide, by decide, by decide, by decide, by decide, by decide⟩
  · have hdisp : calculate s = some (budget_analysis (pyStrip s)) := by
      unfold calculate
      rw [hcls]
    rw [hdisp]
    refine congrArg some ?_
    simp only [budget_analysis]
    rw [if_neg (by simpa using hne), hmap]
  · unfold breakdownFor
    rw [if_neg (by omega)]
  · unfold breakdownFor
    rw [if_pos hgt]
    rw [show budgetCategoryLabel = specBudgetLabel from funext fun i => rfl]

/-- Witness for C5: the concrete budget run routed through the general
dispatch conjunct. -/
theorem budget_path_behavior_witness :
    calculate "budget 1000, 2000, 3000" =
      some (renderBudgetReport "budget 1000, 2000, 3000" [1000, 2000, 3000]) ∧
    breakdownFor [1000, 2000, 3000] ≠ "" := by
  refine ⟨budget_path_behavior.1 "budget 1000, 2000, 3000" [1000, 2000, 3000]
    (by decide) (by decide) (by decide), by decide⟩

/-- C6: the currency path.  For every input routed to Currency, the
first numeric token (comma-stripped) is the base amount and the report
renders exactly four conversions — EUR at the binary64 value of 0.85,
GBP at 0.75, CAD at 1.25, AUD at 1.35 — each an IEEE binary64 product
`amount × rate` to two decimals; for amount 100 the four products are
exactly 85, 75, 125 and 135 (formatted `85.00` / `75.00` / `125.00` /
`135.00`); with no numeric token the result is the amount-and-currencies
prompt (mojibake literals), not a crash. -/
theorem currency_path_behavior :
    (∀ (s : String) (n0 : List Char) (rest : List (List Char)) (amount : ℚ),
      classify s = CalcPath.currency →
      scanTokens (pyStrip s).data = n0 :: rest →
      parseTok n0 = some amount →
      calculate s = some (renderCurrencyReport (pyStrip s) amount)) ∧
    (∀ s : String, classify s = CalcPath.currency → scanTokens (pyStrip s).data = [] →
      calculate s = some ("\u00F0\u0178\u2019\u00B1 Currency query: " ++ pyStrip s ++
        "\n\u00F0\u0178\u2019\u00A1 Please specify amount and currencies for conversion")) ∧
    calculate "convert 100 usd" = some (renderCurrencyReport "convert 100 usd" 100) ∧
    mulDbl 100 usd_to_eur = 85 ∧ fmtFixed2 (mulDbl 100 usd_to_eur) = "85.00" ∧
    mulDbl 100 usd_to_gbp = 75 ∧ fmtFixed2 (mulDbl 100 usd_to_gbp) = "75.00" ∧
    mulDbl 100 usd_to_cad = 125 ∧ fmtFixed2 (mulDbl 100 usd_to_cad) = "125.00" ∧
    mulDbl 100 usd_to_aud = 135 ∧ fmtFixed2 (mulDbl 100 usd_to_aud) = "135.00" ∧
    usd_to_gbp = mkRat 3 4 ∧ usd_to_cad = mkRat 5 4 ∧ usd_to_jpy = 110 := by
  refine ⟨fun s n0 rest amount hcls htok hparse => ?_, fun s hcls htok => ?_, by decide,
    by decide, by decide, by decide, by decide, by decide, by decide, by decide, by decide,
    by decide, by decide, by decide⟩
  · have hdisp : calculate s = some (currency_calculation (pyStrip s)) := by
      unfold calculate
      rw [hcls]
    have hbranch : currency_calculation (pyStrip s) =
        match parseTok n0 with
        | none => "\u00E2\u0152 Could not parse currency amount"
        | some amount => renderCurrencyReport (pyStrip s) amount := by
      unfold currency_calculation
      rw [htok]
    rw [hdisp, hbranch, hparse]
  · have hdisp : calculate s = some (currency_calculation (pyStrip s)) := by
      unfold calculate
      rw [hcls]
    rw [hdisp]
    refine congrArg some ?_
    unfold currency_calculation
    rw [htok]

/-- Witness for C6: the concrete conversion run routed through the
general dispatch conjunct. -/
theorem currency_path_behavior_witness :
    calculate "convert 100 usd" = some (renderCurrencyReport "convert 100 usd" 100) ∧
    calculate "usd please" =
      some "\u00F0\u0178\u2019\u00B1 Currency query: usd please\n\u00F0\u0178\u2019\u00A1 Please specify amount and currencies for conversion" := by
  refine ⟨currency_path_behavior.1 "convert 100 usd" "100".data [] 100
      (by decide) (by decide) (by decide),
    currency_path_behavior.2.1 "usd please" (by decide) (by decide)⟩

lemma splitSep_ne_nil (sep : Char) (l : List Char) : splitSep sep l ≠ [] := by
  induction l with
  | nil => simp [splitSep]
  | cons c t ih =>
    obtain ⟨h0, r0, hh⟩ := List.exists_cons_of_ne_nil ih
    unfold splitSep
    rw [hh]
    by_cases hc : c = sep
    · simp [hc]
    · simp [hc]

lemma splitSep_head (sep : Char) (l : List Char) :
    ∃ r, splitSep sep l = (l.takeWhile (fun c => c ≠ sep)) :: r := by
  induction l with
  | nil => exact ⟨[], rfl⟩
  | cons c t ih =>
    obtain ⟨r, hr⟩ := ih
    by_cases hc : c = sep
    · refine ⟨(t.takeWhile (fun x => x ≠ sep)) :: r, ?_⟩
      unfold splitSep
      rw [hr]
      simp [hc, List.takeWhile_cons]
    · refine ⟨r, ?_⟩
      unfold splitSep
      rw [hr]
      simp [hc, List.takeWhile_cons]

lemma pre_map_takeWhile : ∀ (kw : List Char), (∀ ch ∈ kw, ch ≠ '.') →
    ∀ t : List Char, kw <+: t.map Char.toLower →
      kw <+: (t.takeWhile (fun c => c ≠ '.')).map Char.toLower
  | [], _, _, _ => List.nil_prefix
  | a :: kw', hnd, t, h => by
    cases t with
    | nil => simp at h
    | cons b t' =>
      rw [List.map_cons, List.cons_prefix_cons] at h
      obtain ⟨hab, hpre⟩ := h
      have hbnd : b ≠ '.' := fun hb => hnd a (by simp) (by rw [hab, hb]; rfl)
      rw [List.takeWhile_cons, if_pos (by simp [hbnd]), List.map_cons]
      exact List.cons_prefix_cons.mpr ⟨hab,
        pre_map_takeWhile kw' (fun ch hch => hnd ch (by simp [hch])) t' hpre⟩

lemma seg_exists_fragment (kw : List Char) (hne : kw ≠ []) (hnd : ∀ ch ∈ kw, ch ≠ '.') :
    ∀ l : List Char, kw <:+: l.map Char.toLower →
      ∃ s ∈ splitSep '.' l, kw <:+: s.map Char.toLower := by
  intro l
  induction l with
  | nil =>
    intro h
    simp only [List.map_nil, List.infix_nil] at h
    exact absurd h hne
  | cons c t ih =>
    intro h
    obtain ⟨r, hr⟩ := splitSep_head '.' t
    have hsc : splitSep '.' (c :: t) =
        if c = '.' then [] :: ((t.takeWhile (fun x => x ≠ '.')) :: r)
        else (c :: t.takeWhile (fun x => x ≠ '.')) :: r := by
      unfold splitSep
      rw [hr]
    rw [List.map_cons, List.infix_cons_iff] at h
    rcases h with hp | hi
    · match kw, hne, hnd, hp with
      | k0 :: kw', _, hnd, hp =>
        rw [ List.cons_prefix_cons] at hp
        obtain ⟨hk0, hpre⟩ := hp
        have hcnd : c ≠ '.' := by
          intro hc
          exact hnd k0 (by simp) (by rw [hk0, hc]; rfl)
        refine ⟨c :: t.takeWhile (fun x => x ≠ '.'), ?_, ?_⟩
        · rw [hsc, if_neg hcnd]
          simp
        · rw [List.map_cons]
          refine List.IsPrefix.isInfix ?_
          exact List.cons_prefix_cons.mpr ⟨hk0,
            pre_map_takeWhile kw' (fun ch hch => hnd ch (by simp [hch])) t hpre⟩
    · obtain ⟨sfrag, hmem, hseg⟩ := ih hi
      by_cases hc : c = '.'
      · refine ⟨sfrag, ?_, hseg⟩
        rw [hsc, if_pos hc]
        rw [hr] at hmem
        exact List.mem_cons_of_mem _ hmem
      · rw [hr] at hmem
        rcases List.mem_cons.mp hmem with heq | hmem'
        · refine ⟨c :: t.takeWhile (fun x => x ≠ '.'), ?_, ?_⟩
          · rw [hsc, if_neg hc]
            simp
          · rw [List.map_cons]
            exact List.infix_cons (heq ▸ hseg)
        · refine ⟨sfrag, ?_, hseg⟩
          rw [hsc, if_neg hc]
          exact List.mem_cons_of_mem _ hmem'

lemma relevant_sentences_ne_nil (kw text : String) (hne : kw.data ≠ [])
    (hnd : ∀ ch ∈ kw.data, ch ≠ '.')
    (h : kw.data <:+: text.data.map Char.toLower) :
    relevant_sentences kw text ≠ [] := by
  obtain ⟨sfrag, hmem, hseg⟩ := seg_exists_fragment kw.data hne hnd text.data h
  unfold relevant_sentences
  intro hcontra
  rw [List.map_eq_nil_iff, List.filter_eq_nil_iff] at hcontra
  exact hcontra sfrag hmem (by simp [hasSubL, hseg])

lemma bulletFor_eq_some (kw cat text : String) (hrel : relevant_sentences kw text ≠ []) :
    ∃ r0 rs, relevant_sentences kw text = r0 :: rs ∧
      bulletFor kw cat text =
        some ("\u2022 " ++ cat ++ ": " ++ String.mk (r0.data.take 100) ++ "...") := by
  obtain ⟨r0, rs, h⟩ := List.exists_cons_of_ne_nil hrel
  refine ⟨r0, rs, h, ?_⟩
  unfold bulletFor
  rw [h]

lemma bullets_distinct (a b : String) :
    ("\u2022 " ++ "Tuition and Fees Information" ++ ": " ++ a ++ "...") ≠
      ("\u2022 " ++ "Visa Requirements" ++ ": " ++ b ++ "...") := by
  intro h
  have h2 := congrArg (fun s : String => s.data.get? 2) h
  have ha : ("\u2022 " ++ "Tuition and Fees Information" ++ ": " ++ a ++ "...").data.get? 2 =
      some 'T' := rfl
  have hb : ("\u2022 " ++ "Visa Requirements" ++ ": " ++ b ++ "...").data.get? 2 = some 'V' := rfl
  simp only [ha, hb] at h2
  exact absurd h2 (by decide)

/-- C7: keyword-highlight ordering of the content extractor.  At most 5
bullets are emitted, the emitted list is the first five entries of the
keyword-table-ordered hit list, and for any text containing both
"tuition" and "visa" the tuition bullet is the very first bullet while a
visa bullet can only appear at a strictly later position — regardless of
where the keywords occur in the text. -/
theorem extractor_keyword_order (text : String) :
    ((found_info text).take 5).length ≤ 5 ∧
    (found_info text ≠ [] →
      extract_education_info text = String.intercalate "\n" ((found_info text).take 5)) ∧
    ("tuition".data <:+: text.data.map Char.toLower →
     "visa".data <:+: text.data.map Char.toLower →
      ∃ tb, bulletFor "tuition" "Tuition and Fees Information" text = some tb ∧
        ((found_info text).take 5).head? = some tb ∧
        (∀ (j : ℕ) (vb : String), bulletFor "visa" "Visa Requirements" text = some vb →
          ((found_info text).take 5).get? j = some vb → 0 < j)) := by
  refine ⟨?_, fun hne => ?_, fun htu hvi => ?_⟩
  · rw [List.length_take]
    omega
  · unfold extract_education_info
    rw [if_neg (by simpa using hne)]
  · have hrelt := relevant_sentences_ne_nil "tuition" text (by decide) (by decide) htu
    obtain ⟨r0, rs, hrel0, hbul⟩ :=
      bulletFor_eq_some "tuition" "Tuition and Fees Information" text hrelt
    have htub : hasSubL (text.data.map Char.toLower) "tuition".data = true := by
      simp [hasSubL, htu]
    have hfi : found_info text =
        ("\u2022 " ++ "Tuition and Fees Information" ++ ": " ++ String.mk (r0.data.take 100) ++ "...")
          :: (education_keywords.tail).filterMap (fun kc =>
            if hasSubL (text.data.map Char.toLower) kc.1.data then bulletFor kc.1 kc.2 text
            else none) := by
      unfold found_info
      rw [show education_keywords = education_keywords.head! :: education_keywords.tail from rfl]
      rw [List.filterMap_cons]
      rw [show education_keywords.head! = ("tuition", "Tuition and Fees Information") from rfl]
      simp only [htub, if_true, hbul]
      rfl
    refine ⟨_, hbul, ?_, ?_⟩
    · rw [hfi]
      rfl
    · intro j vb hvb hget
      rcases Nat.eq_zero_or_pos j with hj | hj
      · exfalso
        subst hj
        have hrelv := relevant_sentences_ne_nil "visa" text (by decide) (by decide) hvi
        obtain ⟨v0, vs, hrelv0, hbulv⟩ :=
          bulletFor_eq_some "visa" "Visa Requirements" text hrelv
        rw [hvb] at hbulv
        have hvbval := Option.some.inj hbulv
        rw [hfi] at hget
        have htbval := Option.some.inj hget
        exact bullets_distinct (String.mk (r0.data.take 100)) (String.mk (v0.data.take 100))
          (by rw [htbval, hvbval])
      · exact hj

/-- Witness for C7 at a text where "visa" occurs before "tuition": the
tuition bullet still comes first. -/
theorem extractor_keyword_order_witness :
    ("tuition".data <:+: "A visa helps. Then tuition.".data.map Char.toLower) ∧
    ∃ tb, bulletFor "tuition" "Tuition and Fees Information" "A visa helps. Then tuition." = some tb ∧
      ((found_info "A visa helps. Then tuition.").take 5).head? = some tb := by
  have h := (extractor_keyword_order "A visa helps. Then tuition.").2.2 (by decide) (by decide)
  obtain ⟨tb, h1, h2, _⟩ := h
  exact ⟨by decide, tb, h1, h2⟩

lemma mk_eq_empty_iff (l : List Char) : String.mk l = "" ↔ l = [] := by
  constructor
  · intro h
    exact congrArg String.data h
  · intro h
    rw [h]

/-- C8: city parsing.  The city list is obtained by splitting the raw
string on semicolons, trimming whitespace from each segment and dropping
empty segments; the documented example yields exactly two entries. -/
theorem city_parsing (s : String) :
    parseCityList s = specCitySplit s ∧
    parseCityList "London, UK; Toronto, Canada;;" = ["London, UK", "Toronto, Canada"] := by
  constructor
  · unfold parseCityList specCitySplit
    generalize splitSep ';' s.data = L
    induction L with
    | nil => rfl
    | cons c L' ih =>
      simp only [List.filterMap_cons, List.map_cons, List.filter_cons]
      by_cases hc : pyStripL c = []
      · have h1 : (pyStripL c).isEmpty = true := by simp [hc]
        have h2 : ¬ (String.mk (pyStripL c) ≠ "") := by
          simp [mk_eq_empty_iff, hc]
        simp only [h1, if_true, ih]
        try rw [if_neg (by simpa using h2)]
      · have h1 : (pyStripL c).isEmpty = false := by simpa using hc
        have h2 : String.mk (pyStripL c) ≠ "" := by
          simpa [mk_eq_empty_iff] using hc
        simp only [h1, Bool.false_eq_true, if_false, ih]
        rw [if_pos (by simpa using h2)]
  · decide

/-- C9 counterexample: `collect_inputs` is not total on raw request
maps — a present non-string `origin` raises `AttributeError` in the
source (`inputs.get("origin", "").strip()`), modelled as an error
value. -/
theorem collect_inputs_not_total :
    collect_inputs { origin := some (.int 3) } "2026-10-12" =
      .error "AttributeError: object has no attribute strip" := rfl

lemma isStrOrAbsent_ok (v : Option PyVal) (h : isStrOrAbsent v = true) :
    ∃ s, pyStrStrip (v.getD (.str "")) = .ok s ∧ (v = none → s = "") := by
  match v, h with
  | none, _ => exact ⟨"", rfl, fun _ => rfl⟩
  | some (.str s), _ => exact ⟨pyStrip s, rfl, fun hc => by simp at hc⟩

/-- C9 amended: `collect_inputs` is total and never fails on every
request map whose free-text fields (origin, interests, subject,
study_level, budget_range) are strings when present — `cities`,
`daterange` and `advanced` may be anything; absent keys default (empty
origin, empty city list) and a missing date range falls back to
`(today, today)`. -/
theorem collect_inputs_total_on_typed_requests
    (inputs : RawInputs) (today : String)
    (ho : isStrOrAbsent inputs.origin = true) (hi : isStrOrAbsent inputs.interests = true)
    (hs : isStrOrAbsent inputs.subject = true) (hl : isStrOrAbsent inputs.study_level = true)
    (hb : isStrOrAbsent inputs.budget_range = true) :
    ∃ req : PlanningRequest, collect_inputs inputs today = .ok req ∧
      (inputs.daterange = none → req.daterange = (today, today)) ∧
      (inputs.origin = none → req.origin = "") ∧
      (inputs.cities = none → req.cities = []) := by
  obtain ⟨vo, vc, vd, vi, vs, vl, vb, va⟩ := inputs
  obtain ⟨o, hoe, ho0⟩ := isStrOrAbsent_ok vo ho
  obtain ⟨i, hie, _⟩ := isStrOrAbsent_ok vi hi
  obtain ⟨su, hse, _⟩ := isStrOrAbsent_ok vs hs
  obtain ⟨le, hle, _⟩ := isStrOrAbsent_ok vl hl
  obtain ⟨bu, hbe, _⟩ := isStrOrAbsent_ok vb hb
  unfold collect_inputs
  rw [hoe, hie, hse, hle, hbe]
  refine ⟨_, rfl, fun hd => ?_, fun ho' => ?_, fun hc => ?_⟩
  · rw [hd]
  · exact ho0 ho'
  · rw [hc]
    rfl

/-- Witness for the amended C9 at the all-defaults request map. -/
theorem collect_inputs_total_witness :
    ∃ req : PlanningRequest, collect_inputs {} "2026-10-12" = .ok req ∧
      req.daterange = ("2026-10-12", "2026-10-12") ∧ req.origin = "" ∧ req.cities = [] := by
  obtain ⟨req, h1, h2, h3, h4⟩ := collect_inputs_total_on_typed_requests {} "2026-10-12"
    rfl rfl rfl rfl rfl
  exact ⟨req, h1, h2 rfl, h3 rfl, h4 rfl⟩

lemma parseTok_comma_only (t : List Char) (hall : ∀ c ∈ t, c = ',') :
    parseTok t = none := by
  have hfilter : t.filter (fun c => c ≠ ',') = [] := by
    rw [List.filter_eq_nil_iff]
    intro a ha
    simp [hall a ha]
  unfold parseTok
  rw [hfilter]
  rfl

/-- C10: when the token scanner finds only comma-only tokens, both the
Budget and the Currency path take the could-not-parse error branch
(because the token is found but `float` fails on the comma-stripped
empty string), not the no-token fallback; the error texts carry the
file's mojibake cross-mark prefix. -/
theorem comma_only_tokens_error_branch :
    (∀ (s : String) (t0 : List Char) (ts : List (List Char)),
      classify s = CalcPath.budget →
      scanTokens (pyStrip s).data = t0 :: ts →
      (∀ tok ∈ t0 :: ts, ∀ c ∈ tok, c = ',') →
      calculate s = some ("\u00E2\u0152 Could not parse numbers in: " ++ pyStrip s)) ∧
    (∀ (s : String) (t0 : List Char) (ts : List (List Char)),
      classify s = CalcPath.currency →
      scanTokens (pyStrip s).data = t0 :: ts →
      (∀ tok ∈ t0 :: ts, ∀ c ∈ tok, c = ',') →
      calculate s = some "\u00E2\u0152 Could not parse currency amount") := by
  constructor
  · intro s t0 ts hcls htok hall
    have hdisp : calculate s = some (budget_analysis (pyStrip s)) := by
      unfold calculate
      rw [hcls]
    rw [hdisp]
    refine congrArg some ?_
    simp only [budget_analysis]
    rw [htok]
    have h0 : parseTok t0 = none := parseTok_comma_only t0 (hall t0 (by simp))
    have hmap : List.mapM.loop parseTok (t0 :: ts) [] = none := by
      simp [List.mapM.loop, h0]
    simp [hmap]
  · intro s t0 ts hcls htok hall
    have hdisp : calculate s = some (currency_calculation (pyStrip s)) := by
      unfold calculate
      rw [hcls]
    have hbranch : currency_calculation (pyStrip s) =
        match parseTok t0 with
        | none => "\u00E2\u0152 Could not parse currency amount"
        | some amount => renderCurrencyReport (pyStrip s) amount := by
      unfold currency_calculation
      rw [htok]
    rw [hdisp, hbranch, parseTok_comma_only t0 (hall t0 (by simp))]

/-- Witness for C10: `budget ,,` and `$ ,,` both land in the
could-not-parse branch. -/
theorem comma_only_tokens_error_branch_witness :
    calculate "budget ,," = some "\u00E2\u0152 Could not parse numbers in: budget ,," ∧
    calculate "$ ,," = some "\u00E2\u0152 Could not parse currency amount" := by
  refine ⟨?_, ?_⟩
  · have h := comma_only_tokens_error_branch.1 "budget ,," ",,".data []
      (by decide) (by decide) (by decide)
    exact h
  · have h := comma_only_tokens_error_branch.2 "$ ,," ",,".data []
      (by decide) (by decide) (by decide)
    exact h
